import Mathlib

/-
Verification of the adaptive statement-extraction engine of the
`pdf-to-excel-parser` repository (package `statement_parser`).

The development is a shallow embedding of the Python sources:

* Python strings are modeled as `List Char` (`Str` below); ASCII case
  conversion is used (the statement texts and all keyword tables in the
  sources are ASCII).
* Python floats are modeled as exact rationals represented as
  unnormalized fractions (`Q` below: integer numerator over a positive
  natural denominator), compared by cross-multiplication exactly as the
  reals compare them, so that every model function is evaluable by the
  kernel.  The built-in
  `float(...)` conversion is modeled on its finite decimal fragment
  (optional sign, digits, optional fractional part); exponents, digit
  underscores and the `inf`/`nan` spellings are outside the fragment
  exercised by this development, and every universally quantified theorem
  below that depends on `pyFloat` constrains its input to the fragment.
* Python regular expressions used by the sources are hand-compiled to
  deterministic scanners; each scanner's doc comment cites the pattern.
* Code that can raise an uncaught exception is modeled in an `Except`
  channel; code whose exceptions are caught locally is total.
-/

/-! ### Python string primitives -/

/-- Python strings, modeled as lists of characters. -/
abbrev Str := List Char

/-- Shorthand to inject Lean string literals into the model. -/
def S (s : String) : Str := s.toList

/-- Characters treated as whitespace by Python's `str.strip`, `str.split()`
and the regex class `\s` (ASCII part plus the C1 controls; exotic Unicode
space separators do not occur in this development). -/
def pyIsSpace (c : Char) : Bool :=
  c = ' ' || c = '\t' || c = '\n' || c = '\x0d' || c = '\x0b' || c = '\x0c' ||
  c = '\x1c' || c = '\x1d' || c = '\x1e' || c = '\x1f' || c = '\x85' || c = '\xa0'

/-- ASCII decimal digit (regex `\d` / `str.isdigit` on the texts at hand). -/
def pyIsDigit (c : Char) : Bool := '0' ≤ c && c ≤ '9'

/-- ASCII letter. -/
def pyIsAlpha (c : Char) : Bool := ('a' ≤ c && c ≤ 'z') || ('A' ≤ c && c ≤ 'Z')

/-- Regex word character `\w` (ASCII fragment): letter, digit or underscore. -/
def pyIsWord (c : Char) : Bool := pyIsAlpha c || pyIsDigit c || c = '_'

/-- ASCII lower-casing of one character (`str.lower`). -/
def asciiLower (c : Char) : Char :=
  if 'A' ≤ c && c ≤ 'Z' then Char.ofNat (c.toNat + 32) else c

/-- ASCII upper-casing of one character (`str.upper`). -/
def asciiUpper (c : Char) : Char :=
  if 'a' ≤ c && c ≤ 'z' then Char.ofNat (c.toNat - 32) else c

/-- `str.lower`. -/
def pyLower (s : Str) : Str := s.map asciiLower

/-- `str.upper`. -/
def pyUpper (s : Str) : Str := s.map asciiUpper

/-- `str.strip()` (no argument): remove leading and trailing whitespace. -/
def pyStrip (s : Str) : Str :=
  ((s.dropWhile pyIsSpace).reverse.dropWhile pyIsSpace).reverse

/-- `str.strip(chars)`: remove leading and trailing characters from `cut`. -/
def pyStripSet (cut : Str) (s : Str) : Str :=
  ((s.dropWhile (cut.contains ·)).reverse.dropWhile (cut.contains ·)).reverse

/-- Character of `s` at index `i`; out-of-range reads give `'\x00'`, a
non-word non-space character never occurring in the modeled texts. -/
def charAt (s : Str) (i : Nat) : Char := s.getD i '\x00'

/-- Python `s.find(sub)`: least index of an occurrence (`none` models -1). -/
def pyFind (s sub : Str) : Option Nat :=
  (List.range (s.length + 1)).find? (fun i => sub.isPrefixOf (s.drop i))

/-- Python substring test `sub in s`. -/
def pyContains (s sub : Str) : Bool := (pyFind s sub).isSome

/-- Python `s.split(d)` for a one-character separator (keeps empty parts). -/
def pySplit (s : Str) (d : Char) : List Str :=
  match s with
  | [] => [[]]
  | c :: t =>
    let r := pySplit t d
    if c = d then [] :: r
    else
      match r with
      | h :: t2 => (c :: h) :: t2
      | [] => [[c]]

/-- `str.split()` (no argument) worker: `cur` is the word being read,
reversed. -/
def pySplitWsGo : Str → Str → List Str
  | [], cur => if cur = [] then [] else [cur.reverse]
  | c :: t, cur =>
    if pyIsSpace c then
      if cur = [] then pySplitWsGo t [] else cur.reverse :: pySplitWsGo t []
    else pySplitWsGo t (c :: cur)

/-- Python `s.split()` (no argument): split on whitespace runs, dropping
empty parts. -/
def pySplitWs (s : Str) : List Str := pySplitWsGo s []

/-- Line boundary characters of `str.splitlines()` (besides `\r\n`). -/
def pyIsLineBreak (c : Char) : Bool :=
  c = '\n' || c = '\x0d' || c = '\x0b' || c = '\x0c' ||
  c = '\x1c' || c = '\x1d' || c = '\x1e' || c = '\x85' ||
  c = '\u2028' || c = '\u2029' 

/-- `str.splitlines()` worker: accumulates the current line (reversed). -/
def pySplitlinesGo : Str → Str → List Str
  | [], acc => if acc = [] then [] else [acc.reverse]
  | '\x0d' :: '\n' :: t, acc => acc.reverse :: pySplitlinesGo t []
  | c :: t, acc =>
    if pyIsLineBreak c then acc.reverse :: pySplitlinesGo t []
    else pySplitlinesGo t (c :: acc)

/-- `str.splitlines()`. -/
def pySplitlines (s : Str) : List Str := pySplitlinesGo s []

/-! ### Numerals and Python `float()` -/

/-- Numeric value of a digit string (most significant first). -/
def digitsVal (l : Str) : Nat := l.foldl (fun a c => 10 * a + (c.toNat - 48)) 0

/-- Exact rationals as unnormalized fractions: `n / d` with `d`
positive by construction everywhere in this development.  Comparisons are
by cross-multiplication, which is how the modeled Python floats compare
(two floats are equal exactly when they denote the same rational). -/
structure Q where
  n : Int
  d : Nat
deriving DecidableEq, Repr

/-- Natural-number literals as rationals. -/
instance (k : Nat) : OfNat Q k := ⟨⟨k, 1⟩⟩

/-- Rational (Python float) equality. -/
def qeq (a b : Q) : Bool := a.n * b.d == b.n * a.d

/-- Rational (Python float) strict order. -/
def qlt (a b : Q) : Bool := decide (a.n * b.d < b.n * a.d)

/-- Rational (Python float) non-strict order. -/
def qle (a b : Q) : Bool := decide (a.n * b.d ≤ b.n * a.d)

/-- Negation. -/
def qneg (a : Q) : Q := ⟨-a.n, a.d⟩

/-- Difference. -/
def qsub (a b : Q) : Q := ⟨a.n * b.d - b.n * a.d, a.d * b.d⟩

/-- Absolute value. -/
def qabs (a : Q) : Q := ⟨a.n.natAbs, a.d⟩

/-- Unsigned part of Python `float()` on the finite decimal fragment:
`D+ [. D*] | . D+` (no exponents/underscores/`inf`/`nan`; see header). -/
def pyFloatCore (t : Str) : Option Q :=
  let ip := t.takeWhile pyIsDigit
  let rest := t.drop ip.length
  match rest with
  | [] => if ip.isEmpty then none else some ⟨digitsVal ip, 1⟩
  | '.' :: fr =>
    if fr.all pyIsDigit && (!ip.isEmpty || !fr.isEmpty) then
      some ⟨digitsVal ip * 10 ^ fr.length + digitsVal fr, 10 ^ fr.length⟩
    else none
  | _ => none

/-- Python `float(s)` on the finite decimal fragment, `none` = `ValueError`:
an optional leading sign, then the unsigned numeral. -/
def pyFloat (s : Str) : Option Q :=
  match s with
  | c :: t =>
    if c = '+' then pyFloatCore t
    else if c = '-' then (pyFloatCore t).map qneg
    else pyFloatCore (c :: t)
  | [] => pyFloatCore []

/-! ### Hand-compiled regex scanners for dates and amounts -/

/-- Full match of `^(\d{1,2})/(\d{1,2})/(\d{2,4})$`
(`_DATE_PATTERN_DDMMYYYY` in `utils/formatting.py`), returning the groups. -/
def matchDDMMYYYYFull (s : Str) : Option (Str × Str × Str) :=
  let d := s.takeWhile pyIsDigit
  let s1 := s.drop d.length
  if d.length = 0 || d.length > 2 then none else
  match s1 with
  | '/' :: s2 =>
    let m := s2.takeWhile pyIsDigit
    let s3 := s2.drop m.length
    if m.length = 0 || m.length > 2 then none else
    match s3 with
    | '/' :: s4 =>
      if s4.all pyIsDigit && 2 ≤ s4.length && s4.length ≤ 4 then some (d, m, s4)
      else none
    | _ => none
  | _ => none

/-- Full match of `^(\d{1,2})\s+([A-Za-z]{3})\s+(\d{2,4})$`
(`_DATE_PATTERN_DDMMMYYYY` in `utils/formatting.py`), returning the groups. -/
def matchDDMonFull (s : Str) : Option (Str × Str × Str) :=
  let d := s.takeWhile pyIsDigit
  let s1 := s.drop d.length
  if d.length = 0 || d.length > 2 then none else
  let sp1 := s1.takeWhile pyIsSpace
  let s2 := s1.drop sp1.length
  if sp1.isEmpty then none else
  let mon := s2.takeWhile pyIsAlpha
  let s3 := s2.drop mon.length
  if mon.length ≠ 3 then none else
  let sp2 := s3.takeWhile pyIsSpace
  let s4 := s3.drop sp2.length
  if sp2.isEmpty then none else
  if s4.all pyIsDigit && 2 ≤ s4.length && s4.length ≤ 4 then some (d, mon, s4)
  else none

/-- Full match of `^(\d{4})-(\d{1,2})-(\d{1,2})$`
(`_DATE_PATTERN_YYYYMMDD` in `utils/formatting.py`), returning the groups. -/
def matchYYYYMMDDFull (s : Str) : Option (Str × Str × Str) :=
  let y := s.takeWhile pyIsDigit
  let s1 := s.drop y.length
  if y.length ≠ 4 then none else
  match s1 with
  | '-' :: s2 =>
    let m := s2.takeWhile pyIsDigit
    let s3 := s2.drop m.length
    if m.length = 0 || m.length > 2 then none else
    match s3 with
    | '-' :: s4 =>
      if s4.all pyIsDigit && 1 ≤ s4.length && s4.length ≤ 2 then some (y, m, s4)
      else none
    | _ => none
  | _ => none

/-- Match of `(\d{1,2}/\d{1,2}/\d{2,4})` (`DATE_PATTERN_DDMMYYYY` in
`patterns/generic.py`) at the head of `cs`, greedy with backtracking. -/
def matchDDMMYYYYAt (cs : Str) : Option Str :=
  let d := cs.takeWhile pyIsDigit
  let day : Option Str :=
    if 2 ≤ d.length && charAt cs 2 = '/' then some (cs.take 2)
    else if 1 ≤ d.length && charAt cs 1 = '/' then some (cs.take 1)
    else none
  match day with
  | none => none
  | some dd =>
    let cs2 := cs.drop (dd.length + 1)
    let m := cs2.takeWhile pyIsDigit
    let mon : Option Str :=
      if 2 ≤ m.length && charAt cs2 2 = '/' then some (cs2.take 2)
      else if 1 ≤ m.length && charAt cs2 1 = '/' then some (cs2.take 1)
      else none
    match mon with
    | none => none
    | some mm =>
      let cs3 := cs2.drop (mm.length + 1)
      let y := cs3.takeWhile pyIsDigit
      if y.length < 2 then none
      else some (dd ++ '/' :: mm ++ '/' :: y.take 4)

/-- Leftmost search with a head matcher: first index where `m` succeeds. -/
def searchWith {α : Type} (m : Str → Option α) (s : Str) : Option (Nat × α) :=
  (List.range (s.length + 1)).findSome? (fun i => (m (s.drop i)).map (fun a => (i, a)))

/-- `DATE_PATTERN_DDMMYYYY.search`: leftmost `\d{1,2}/\d{1,2}/\d{2,4}`,
as start index and matched text. -/
def searchDDMMYYYY (s : Str) : Option (Nat × Str) := searchWith matchDDMMYYYYAt s

/-- Match of `(\d{1,2}\s+[A-Za-z]{3}\s+\d{2,4})` (`DATE_PATTERN_DDMMMYYYY`
in `patterns/generic.py`) at the head of `cs`. -/
def matchDDMonAt (cs : Str) : Option Str :=
  let d := cs.takeWhile pyIsDigit
  let day : Option Str :=
    if 2 ≤ d.length && pyIsSpace (charAt cs 2) then some (cs.take 2)
    else if 1 ≤ d.length && pyIsSpace (charAt cs 1) then some (cs.take 1)
    else none
  match day with
  | none => none
  | some dd =>
    let cs2 := cs.drop dd.length
    let sp1 := cs2.takeWhile pyIsSpace
    let cs3 := cs2.drop sp1.length
    let mon := cs3.takeWhile pyIsAlpha
    if mon.length ≠ 3 then none else
    let cs4 := cs3.drop 3
    let sp2 := cs4.takeWhile pyIsSpace
    let cs5 := cs4.drop sp2.length
    if sp2.isEmpty then none else
    let y := cs5.takeWhile pyIsDigit
    if y.length < 2 then none
    else some (dd ++ sp1 ++ mon ++ sp2 ++ y.take 4)

/-- `DATE_PATTERN_DDMMMYYYY.search`. -/
def searchDDMon (s : Str) : Option (Nat × Str) := searchWith matchDDMonAt s

/-- Match of `(\d{4}-\d{1,2}-\d{1,2})` (`DATE_PATTERN_YYYYMMDD` in
`patterns/generic.py`) at the head of `cs`. -/
def matchYYYYMMDDAt (cs : Str) : Option Str :=
  if (cs.take 4).length = 4 && (cs.take 4).all pyIsDigit && charAt cs 4 = '-' then
    let cs2 := cs.drop 5
    let m := cs2.takeWhile pyIsDigit
    let mon : Option Str :=
      if 2 ≤ m.length && charAt cs2 2 = '-' then some (cs2.take 2)
      else if 1 ≤ m.length && charAt cs2 1 = '-' then some (cs2.take 1)
      else none
    match mon with
    | none => none
    | some mm =>
      let cs3 := cs2.drop (mm.length + 1)
      let d := cs3.takeWhile pyIsDigit
      if d.length < 1 then none
      else some (cs.take 4 ++ '-' :: mm ++ '-' :: d.take 2)
  else none

/-- `DATE_PATTERN_YYYYMMDD.search`. -/
def searchYYYYMMDD (s : Str) : Option (Nat × Str) := searchWith matchYYYYMMDDAt s

/-- Match of `(\d{1,2} [A-Za-z]{3} \d{4})` (the Indian-bank date pattern in
`BankStatementParser._parse_indian_bank_line`) at the head of `cs`. -/
def matchIndianDateAt (cs : Str) : Option Str :=
  let d := cs.takeWhile pyIsDigit
  let day : Option Str :=
    if 2 ≤ d.length && charAt cs 2 = ' ' then some (cs.take 2)
    else if 1 ≤ d.length && charAt cs 1 = ' ' then some (cs.take 1)
    else none
  match day with
  | none => none
  | some dd =>
    let cs2 := cs.drop (dd.length + 1)
    let mon := cs2.takeWhile pyIsAlpha
    if mon.length ≠ 3 then none else
    match cs2.drop 3 with
    | ' ' :: cs3 =>
      let y := cs3.takeWhile pyIsDigit
      if y.length < 4 then none
      else some (dd ++ ' ' :: mon ++ ' ' :: y.take 4)
    | _ => none

/-- Search for the Indian-bank date pattern. -/
def searchIndianDate (s : Str) : Option (Nat × Str) := searchWith matchIndianDateAt s

/-- One match of `AMOUNT_PATTERN = ([0-9,]+(?:\.[0-9]+)?)\s*(Cr|CR|Dr|DR)?`
(IGNORECASE): group-1 start (= match start), group-1 text, the optional
suffix (`some true` = a `cr` spelling, `some false` = a `dr` spelling) and
the match end (past the `\s*` and suffix). -/
structure AmtMatch where
  start : Nat
  amt : Str
  sufCr : Option Bool
  stop : Nat
deriving DecidableEq, Repr

/-- Try `AMOUNT_PATTERN` at absolute index `i` of `s`. -/
def amtAt (s : Str) (i : Nat) : Option AmtMatch :=
  let cs := s.drop i
  let run := cs.takeWhile (fun c => pyIsDigit c || c = ',')
  if run.isEmpty then none else
  let rest := cs.drop run.length
  let g1 :=
    match rest with
    | '.' :: r2 =>
      let fr := r2.takeWhile pyIsDigit
      if fr.isEmpty then run else run ++ '.' :: fr
    | _ => run
  let rest2 := cs.drop g1.length
  let spn := (rest2.takeWhile pyIsSpace).length
  let rest3 := rest2.drop spn
  match rest3 with
  | a :: b :: _ =>
    if (a = 'c' || a = 'C') && (b = 'r' || b = 'R') then
      some ⟨i, g1, some true, i + g1.length + spn + 2⟩
    else if (a = 'd' || a = 'D') && (b = 'r' || b = 'R') then
      some ⟨i, g1, some false, i + g1.length + spn + 2⟩
    else some ⟨i, g1, none, i + g1.length + spn⟩
  | _ => some ⟨i, g1, none, i + g1.length + spn⟩

/-- `AMOUNT_PATTERN.finditer` worker (fuel ≥ remaining length suffices:
every step advances the index by at least one). -/
def amtFindIterGo (s : Str) : Nat → Nat → List AmtMatch
  | 0, _ => []
  | fuel+1, i =>
    if i < s.length then
      match amtAt s i with
      | some m => m :: amtFindIterGo s fuel m.stop
      | none => amtFindIterGo s fuel (i + 1)
    else []

/-- `AMOUNT_PATTERN.finditer`. -/
def amtFindIter (s : Str) : List AmtMatch := amtFindIterGo s (s.length + 1) 0

/-- `AMOUNT_PATTERN.search`: the first match, if any. -/
def amtSearch (s : Str) : Option AmtMatch := (amtFindIter s).head?

/-! ### Word boundaries and `parse_amount` (`utils/formatting.py`) -/

/-- Regex word boundary `\b` at position `i` of `s`: exactly one of the
characters around the position is a word character. -/
def wordB (s : Str) (i : Nat) : Bool :=
  (decide (0 < i) && pyIsWord (charAt s (i - 1))) !=
    (decide (i < s.length) && pyIsWord (charAt s i))

/-- `re.search(r'\b(Xy|XY)\b', s, re.IGNORECASE)` for a two-letter marker:
a word-bounded `[x1|x2][y1|y2]` pair somewhere in `s`. -/
def hasWordPair (x1 x2 y1 y2 : Char) (s : Str) : Bool :=
  (List.range s.length).any (fun i =>
    (charAt s i = x1 || charAt s i = x2) &&
    (charAt s (i + 1) = y1 || charAt s (i + 1) = y2) &&
    decide (i + 1 < s.length) && wordB s i && wordB s (i + 2))

/-- The character class `[₹$Rs?\s]` with IGNORECASE (`parse_amount`'s
currency-symbol removal): note that it also matches the letters
`R`, `r`, `S`, `s`. -/
def currencyChar (c : Char) : Bool :=
  c = '₹' || c = '$' || c = 'R' || c = 'r' || c = 'S' || c = 's' || c = '?' ||
    pyIsSpace c

/-- A `[cCdD][rR]` pair at index `p` of `s` followed by a word boundary:
the core of a match of `\s*(Cr|CR|Dr|DR)\b` (IGNORECASE). -/
def crDrPairAt (s : Str) (p : Nat) : Bool :=
  (charAt s p = 'c' || charAt s p = 'C' || charAt s p = 'd' || charAt s p = 'D') &&
  (charAt s (p + 1) = 'r' || charAt s (p + 1) = 'R') &&
  decide (p + 1 < s.length) && wordB s (p + 2)

/-- `re.sub(r'\s*(Cr|CR|Dr|DR)\b', '', s, re.IGNORECASE)` worker: at index
`i`, a leftmost match is a whitespace run followed by a bounded `cr`/`dr`
pair; matched spans are dropped, other characters kept. -/
def stripCrDrGo (s : Str) : Nat → Nat → Str
  | 0, _ => []
  | fuel+1, i =>
    if i < s.length then
      let k := ((s.drop i).takeWhile pyIsSpace).length
      if crDrPairAt s (i + k) then stripCrDrGo s fuel (i + k + 2)
      else charAt s i :: stripCrDrGo s fuel (i + 1)
    else []

/-- `re.sub(r'\s*(Cr|CR|Dr|DR)\b', '', s, re.IGNORECASE)`. -/
def stripCrDr (s : Str) : Str := stripCrDrGo s (s.length + 1) 0

/-- `parse_amount` (`utils/formatting.py`), with the one operation whose
exception would escape the function — the `parts[1]` access after
`split('.')` — modeled in the `Except` channel.  The `float(...)`
conversion is guarded by `try/except ValueError` in the source and is
therefore total here (`0.0` on failure). -/
def parse_amountE (s : Str) : Except Unit Q :=
  let a0 := pyStrip s
  let a1 := a0.filter (fun c => !currencyChar c)
  let hasCr := hasWordPair 'c' 'C' 'r' 'R' a1
  let hasDr := hasWordPair 'd' 'D' 'r' 'R' a1
  let a2 := pyStrip (stripCrDr a1)
  let a3 : Except Unit Str :=
    if a2.contains '.' then
      match pySplit a2 '.' with
      | p0 :: p1 :: _ => .ok (p0.filter (· ≠ ',') ++ '.' :: p1)
      | _ => .error ()
    else .ok (a2.filter (· ≠ ','))
  a3.map (fun t =>
    match pyFloat t with
    | some v => if hasDr && !hasCr then qneg v else v
    | none => 0)

/-- `parse_amount` as the total function it is proved to be (`C6`). -/
def parse_amount (s : Str) : Q :=
  match parse_amountE s with
  | .ok q => q
  | .error _ => 0

/-! ### `parse_date` (`utils/formatting.py`) -/

/-- The `_MONTH_NAMES` table. -/
def monthNames : List (Str × Nat) :=
  [(S "jan", 1), (S "feb", 2), (S "mar", 3), (S "apr", 4), (S "may", 5),
   (S "jun", 6), (S "jul", 7), (S "aug", 8), (S "sep", 9), (S "oct", 10),
   (S "nov", 11), (S "dec", 12),
   (S "january", 1), (S "february", 2), (S "march", 3), (S "april", 4),
   (S "june", 6), (S "july", 7), (S "august", 8), (S "september", 9),
   (S "october", 10), (S "november", 11), (S "december", 12)]

/-- `_MONTH_NAMES.get`. -/
def monthNum (m : Str) : Option Nat :=
  (monthNames.find? (fun p => p.1 = m)).map Prod.snd

/-- `str.zfill(2)`. -/
def zfill2 (s : Str) : Str := List.replicate (2 - s.length) '0' ++ s

/-- The two-digit-year pivot: `<50 → 20YY`, otherwise `19YY`; other year
lengths are kept unchanged. -/
def pivotYear (y : Str) : Str :=
  if y.length = 2 then
    if digitsVal y < 50 then '2' :: '0' :: y else '1' :: '9' :: y
  else y

/-- Decimal digits of a natural number. -/
def natToStr (n : Nat) : Str := (toString n).toList

/-- `parse_date` (`utils/formatting.py`).  The `dateutil.parser.parse`
fallback (an external library) is an oracle parameter: `oracle t` models
`parsed.strftime("%d/%m/%Y")` on success and `none` models the caught
`ValueError`/`TypeError`.  An empty input is falsy and returns `None`
before the fallback can run. -/
def parse_date (oracle : Str → Option Str) (s0 : Str) : Option Str :=
  if s0.isEmpty then none
  else
    let s := pyStrip s0
    match matchDDMMYYYYFull s with
    | some (d, m, y) => some (zfill2 d ++ '/' :: zfill2 m ++ '/' :: pivotYear y)
    | none =>
      let f2 : Option Str :=
        match matchDDMonFull s with
        | some (d, mon, y) =>
          (monthNum (pyLower mon)).map (fun mn =>
            zfill2 d ++ '/' :: zfill2 (natToStr mn) ++ '/' :: pivotYear y)
        | none => none
      match f2 with
      | some r => some r
      | none =>
        match matchYYYYMMDDFull s with
        | some (y, m, d) => some (zfill2 d ++ '/' :: zfill2 m ++ '/' :: y)
        | none => oracle s

/-! ### Line classifier `is_skip_line` (`patterns/generic.py`) -/

/-- The `SKIP_KEYWORDS` set (one entry per distinct member). -/
def SKIP_KEYWORDS : List Str :=
  [S "statement date", S "payment due", S "credit limit", S "available balance",
   S "opening balance", S "closing balance", S "total amount", S "minimum amount",
   S "personal details", S "address", S "email", S "phone", S "customer id",
   S "account number", S "branch code", S "product code", S "ifsc",
   S "micr code", S "statement from", S "statement to", S "period",
   S "thank you", S "regards", S "sincerely",
   S "reward points", S "summary", S "transaction details", S "transaction date",
   S "description", S "amount", S "balance", S "reference", S "chq",
   S "value date", S "withdrawal", S "deposit", S "narration", S "cr",
   S "debit", S "credit", S "cheque", S "no.", S "serial", S "sl",
   S "page", S "page no", S "page number", S "continued", S "end",
   S "account summary", S "card summary", S "transaction summary",
   S "fees", S "charges", S "interest", S "gst", S "tax",
   S "important", S "messages", S "notes", S "terms", S "conditions",
   S "reward", S "points", S "earnings", S "bonus", S "cashback",
   S "emi", S "flexipay", S "encash", S "balance transfer",
   S "mobile", S "mobile no", S "mobile number", S "landline",
   S "website", S "www", S "http", S "email id", S "fax",
   S "address:", S "branch:", S "account:", S "card:",
   S "your", S "customer", S "member", S "client", S "holder",
   S "beneficiary", S "payer", S "recipient", S "sender",
   S "transaction type", S "transaction id", S "txn id",
   S "ref no", S "reference number", S "transaction reference",
   S "card holder", S "cardholder", S "card no", S "card number",
   S "statement period", S "billing period", S "due date", S "paid date"]

/-- `re.search(r'\b' + re.escape(kw) + r'\b', s)`: an occurrence of the
literal `kw` with word boundaries at both ends. -/
def wordSearch (kw s : Str) : Bool :=
  (List.range (s.length + 1)).any (fun i =>
    kw.isPrefixOf (s.drop i) && wordB s i && wordB s (i + kw.length))

/-- `^\s*Page\s+\d+\s*[-=]*$` on an already stripped line. -/
def skipPagePat (st : Str) : Bool :=
  if (S "Page").isPrefixOf st then
    let r1 := st.drop 4
    let sp := r1.takeWhile pyIsSpace
    let r2 := r1.drop sp.length
    let dg := r2.takeWhile pyIsDigit
    let r3 := r2.drop dg.length
    let sp2 := r3.takeWhile pyIsSpace
    let r4 := r3.drop sp2.length
    !sp.isEmpty && !dg.isEmpty && r4.all (fun c => c = '-' || c = '=')
  else false

/-- The character class excluded by the last entry of `SKIP_PATTERNS`
(`[^a-zA-Z0-9@#\$%\^&\*\(\)\-_=\+\[\]\{\}\|;:\'",.<>\/?\\]`): ASCII
alphanumerics and the listed punctuation. -/
def skipP5Excluded (c : Char) : Bool :=
  pyIsAlpha c || pyIsDigit c ||
  ['@', '#', '$', '%', '^', '&', '*', '(', ')', '-', '_', '=', '+',
   '[', ']', '\x7b', '\x7d', '|', ';', ':', Char.ofNat 39, '"', ',', '.',
   '<', '>', '/', '?', '\\'].contains c

/-- `is_skip_line` (`patterns/generic.py`): empty/whitespace line, one of
the `SKIP_PATTERNS` on the stripped line, or a `SKIP_KEYWORDS` member as a
whole word in the lowered line. -/
def is_skip_line (line : Str) : Bool :=
  if line.isEmpty || (pyStrip line).isEmpty then true
  else
    let st := pyStrip line
    let ll := pyLower line
    (st.all (fun c => c = '-' || c = '_' || c = '=')) ||
    skipPagePat st || st = S "continued" || st = S "End" ||
    (st.all (fun c => !skipP5Excluded c)) ||
    SKIP_KEYWORDS.any (fun kw => wordSearch kw ll)

/-! ### `_clean_description` (`formats/bank_statement.py`) -/

/-- A token matching `\d+(?:\.\d+)?` exactly. -/
def numTok (t : Str) : Bool :=
  let dg := t.takeWhile pyIsDigit
  if dg.isEmpty then false
  else
    match t.drop dg.length with
    | [] => true
    | '.' :: fr => !fr.isEmpty && fr.all pyIsDigit
    | _ => false

/-- Strip trailing whitespace only. -/
def rstripWs (s : Str) : Str := (s.reverse.dropWhile pyIsSpace).reverse

/-- Tail matcher for `\s+\d{1,2}/\d{1,2}/\d{2,4}\s*$`. -/
def tailDate (u : Str) : Bool :=
  let sp := u.takeWhile pyIsSpace
  !sp.isEmpty && (matchDDMMYYYYFull (rstripWs (u.drop sp.length))).isSome

/-- Tail matcher for `\s+\d+(?:\.\d+)?\s*$`. -/
def tailNum1 (u : Str) : Bool :=
  let sp := u.takeWhile pyIsSpace
  !sp.isEmpty && numTok (rstripWs (u.drop sp.length))

/-- Tail matcher for `\s+\d+(?:\.\d+)?\s+\d+(?:\.\d+)?\s*$`. -/
def tailNum2 (u : Str) : Bool :=
  let sp := u.takeWhile pyIsSpace
  !sp.isEmpty &&
    (match pySplitWs (u.drop sp.length) with
     | [a, b] => numTok a && numTok b
     | _ => false)

/-- Tail matcher for
`\s+\d+(?:\.\d+)?\s+\d+(?:\.\d+)?(?:\s+\d+(?:\.\d+)?)?\s*$`. -/
def tailNum23 (u : Str) : Bool :=
  let sp := u.takeWhile pyIsSpace
  !sp.isEmpty &&
    (match pySplitWs (u.drop sp.length) with
     | [a, b] => numTok a && numTok b
     | [a, b, c] => numTok a && numTok b && numTok c
     | _ => false)

/-- `re.sub` of a `$`-anchored pattern: at most one match is possible; the
matched tail starts at the least index whose suffix matches, and it is
removed. -/
def cleanSuffix (p : Str → Bool) (s : Str) : Str :=
  match (List.range (s.length + 1)).find? (fun i => p (s.drop i)) with
  | some i => s.take i
  | none => s

/-- `BankStatementParser._clean_description`. -/
def clean_description (s : Str) : Str :=
  if s.isEmpty then []
  else
    let s1 := List.intercalate [' '] (pySplitWs s)
    let s2 := cleanSuffix tailDate s1
    let s3 := cleanSuffix tailNum1 s2
    let s4 := cleanSuffix tailNum2 s3
    let s5 := cleanSuffix tailNum23 s4
    let s6 := pyStripSet (S " .,-_:;@#") s5
    if s6.length > 200 then s6.take 200 else s6

/-! ### `_is_credit_transaction` (`formats/bank_statement.py`) -/

/-- `re.sub(r'\s{2,}', ' ', s)`: whitespace runs of length at least two
become one space; a single whitespace character is kept as is. -/
def collapseWs2Go (s : Str) : Nat → Nat → Str
  | 0, _ => []
  | fuel+1, i =>
    if i < s.length then
      let k := ((s.drop i).takeWhile pyIsSpace).length
      if k ≥ 2 then ' ' :: collapseWs2Go s fuel (i + k)
      else charAt s i :: collapseWs2Go s fuel (i + 1)
    else []

/-- `re.sub(r'\s{2,}', ' ', s)`. -/
def collapseWs2 (s : Str) : Str := collapseWs2Go s (s.length + 1) 0

/-- The `credit_keywords` list of `_is_credit_transaction`. -/
def creditKeywords : List Str :=
  [S "CR", S "CRED", S "CREDIT", S "FT-", S "DEPOSIT", S "CREDCLUB",
   S "CRED.C", S "NEFT", S "RTGS", S "IMPS", S "TRANSFER IN", S "CREDITED"]

/-- `BankStatementParser._is_credit_transaction`.  `line` is the original
line, `vdStart` the start of the value-date match, `after` the text after
the value date.  As in the source, the gap is measured between positions
obtained by `str.find` on the matched amount texts (first occurrences)
and the slice `after[first_amt_end:balance_start]` clamps to empty when
the bounds cross. -/
def is_credit_transaction (line : Str) (vdStart : Nat) (after : Str) : Bool :=
  let amounts := amtFindIter after
  if amounts.length < 2 then false
  else
    match amounts.head?, amounts.getLast? with
    | some a0, some an =>
      let firstAmtEnd := (pyFind after a0.amt).getD 0 + a0.amt.length
      let balanceStart := (pyFind after an.amt).getD 0
      let gapLen := min balanceStart after.length - min firstAmtEnd after.length
      if gapLen ≥ 5 then true
      else if gapLen ≤ 2 then
        let desc := pyUpper (collapseWs2 (pyStrip (line.take vdStart)))
        creditKeywords.any (fun kw => pyContains desc kw)
      else false
    | _, _ => false

/-! ### Statement-type detection and parser selection
(`detector.py`, `parser.py`) -/

/-- `StatementType` (`detector.py`). -/
inductive StatementType where
  | BANK | CREDIT_CARD | UPI | UNKNOWN | COMBINED
deriving DecidableEq, Repr

/-- The `value` attribute of each `StatementType` member. -/
def StatementType.value : StatementType → Str
  | .BANK => S "bank"
  | .CREDIT_CARD => S "credit_card"
  | .UPI => S "upi"
  | .UNKNOWN => S "unknown"
  | .COMBINED => S "combined"

/-- `detect_statement_type` (`detector.py`): the body of the source
function is a single `return StatementType.BANK`; the scoring helpers
below it are never consulted. -/
def detect_statement_type (_text : Str) : StatementType := .BANK

/-- A parser as data for selection purposes: its class name and its
`statement_type` class attribute. -/
structure ParserInfo where
  name : Str
  statementType : Str
deriving DecidableEq, Repr

/-- The `self.parsers` list built in `StatementParser.__init__`. -/
def parsers : List ParserInfo :=
  [⟨S "GenericStatementParser", S "generic"⟩,
   ⟨S "BankStatementParser", S "bank"⟩,
   ⟨S "CreditCardParser", S "credit_card"⟩,
   ⟨S "UPIStatementParser", S "upi"⟩]

/-- `StatementParser._select_parser`: first parser whose `statement_type`
equals the detected type's value, defaulting to the first list entry. -/
def selectParser (t : StatementType) : ParserInfo :=
  match parsers.find? (fun p => p.statementType = t.value) with
  | some p => p
  | none => parsers.headD ⟨[], []⟩

/-! ### Transactions and the deduplicator (`utils/validation.py`) -/

/-- A transaction record.  Every extraction strategy of the sources builds
a dict with the keys below (`txType` models the `'type'` key); the
`'amount'` key is set only by some strategies and is therefore optional
(`tx.get('amount', 0)` reads `amount.getD 0`). -/
structure Tx where
  date : Str
  description : Str
  narration : Str
  valueDate : Str
  debit : Q
  credit : Q
  balance : Q
  reference : Str
  cardNo : Str
  txType : Str
  merchant : Str
  amount : Option Q := none
deriving DecidableEq, Repr

/-- Days in a month of the proleptic Gregorian calendar (as
`datetime.datetime` validates). -/
def daysInMonth (y m : Nat) : Nat :=
  if m = 2 then (if (y % 4 = 0 && y % 100 ≠ 0) || y % 400 = 0 then 29 else 28)
  else if m = 4 || m = 6 || m = 9 || m = 11 then 30
  else if 1 ≤ m && m ≤ 12 then 31
  else 0

/-- Day ordinal of a valid date (days before year `y` plus days before
month `m` plus `d`), so that date differences are day counts. -/
def dateOrdinal (y m d : Nat) : Nat :=
  365 * (y - 1) + (y - 1) / 4 - (y - 1) / 100 + (y - 1) / 400 +
    (List.range (m - 1)).foldl (fun a i => a + daysInMonth y (i + 1)) 0 + d

/-- `_parse_date_for_dedup`: `^(\d{2})/(\d{2})/(\d{4})$` plus
`datetime`-constructor validity; the result is the day ordinal. -/
def parse_date_for_dedup (s : Str) : Option Nat :=
  match pySplit s '/' with
  | [d, m, y] =>
    if d.length = 2 && m.length = 2 && y.length = 4 &&
        d.all pyIsDigit && m.all pyIsDigit && y.all pyIsDigit then
      let Y := digitsVal y
      let M := digitsVal m
      let D := digitsVal d
      if 1 ≤ Y && 1 ≤ M && M ≤ 12 && 1 ≤ D && D ≤ daysInMonth Y M then
        some (dateOrdinal Y M D)
      else none
    else none
  | _ => none

/-- `is_duplicate_transaction` (`utils/validation.py`) with the default
`threshold_days = 1`.  The float tolerance `0.01` is the rational `1/100`
here. -/
def is_duplicate_transaction (t1 t2 : Tx) : Bool :=
  let a1 := t1.amount.getD 0
  let a2 := t2.amount.getD 0
  if qlt ⟨1, 100⟩ (qabs (qsub a1 a2)) then false
  else
    match parse_date_for_dedup t1.date, parse_date_for_dedup t2.date with
    | some o1, some o2 =>
      if (max o1 o2 - min o1 o2) > 1 then false
      else
        let d1 := pyStrip (pyLower t1.description)
        let d2 := pyStrip (pyLower t2.description)
        let r1 := pyStrip t1.reference
        let r2 := pyStrip t2.reference
        if !r1.isEmpty && !r2.isEmpty && r1 ≠ r2 then false
        else
          let n1 := pyStrip (pyLower t1.narration)
          let n2 := pyStrip (pyLower t2.narration)
          if !n1.isEmpty && !n2.isEmpty && n1 ≠ n2 then false
          else if d1 = d2 then true
          else pyContains d2 d1 || pyContains d1 d2
    | _, _ => false

/-- `_get_dedup_key`: `(float(tx.get('amount', 0)), tx.get('date', ''))`. -/
def dedupKey (t : Tx) : Q × Str := (t.amount.getD 0, t.date)

/-- Key equality for the grouping dict: float equality on the amount and
string equality on the date. -/
def keyEq (a b : Q × Str) : Bool := qeq a.1 b.1 && a.2 == b.2

/-- Insert a transaction into the ordered key-group association list
(Python dict insertion-order semantics). -/
def groupIns (gs : List ((Q × Str) × List Tx)) (k : Q × Str) (t : Tx) :
    List ((Q × Str) × List Tx) :=
  match gs with
  | [] => [(k, [t])]
  | (k', l) :: r =>
    if keyEq k' k then (k', l ++ [t]) :: r else (k', l) :: groupIns r k t

/-- Phase 1 of `deduplicate_transactions`: group by dedup key. -/
def buildGroups (txs : List Tx) : List ((Q × Str) × List Tx) :=
  txs.foldl (fun gs t => groupIns gs (dedupKey t) t) []

/-- Phase 2, inner loop: members of a group of size over one are kept only
when they duplicate no transaction accepted so far (`u` is the global
accumulator, `acc` the members of this group kept so far). -/
def keepGroup (u : List Tx) : List Tx → List Tx → List Tx
  | [], acc => acc
  | t :: ts, acc =>
    if (u ++ acc).any (fun e => is_duplicate_transaction t e) then keepGroup u ts acc
    else keepGroup u ts (acc ++ [t])

/-- Phase 2, outer loop over the groups in key-insertion order; a
singleton group is appended without any duplicate check. -/
def dedupLoop : List (List Tx) → List Tx → List Tx
  | [], u => u
  | g :: gs, u =>
    let ne := if g.length = 1 then g else keepGroup u g []
    dedupLoop gs (u ++ ne)

/-- `deduplicate_transactions` (`utils/validation.py`). -/
def deduplicate_transactions (txs : List Tx) : List Tx :=
  if txs.isEmpty then [] else dedupLoop ((buildGroups txs).map Prod.snd) []

/-! ### `extract_date` and `parse_generic_line` (`patterns/generic.py`) -/

/-- `extract_date`: try `DD/MM/YYYY` (formatted inline), then `DD Mon
YYYY` and `YYYY-MM-DD` via `parse_date`. -/
def extract_date (oracle : Str → Option Str) (line : Str) : Option Str :=
  match searchDDMMYYYY line with
  | some (_, txt) =>
    match pySplit txt '/' with
    | [d, m, y] => some (zfill2 d ++ '/' :: zfill2 m ++ '/' :: pivotYear y)
    | _ => none  -- unreachable: the matched text always has exactly two slashes
  | none =>
    match searchDDMon line with
    | some (_, txt) => parse_date oracle txt
    | none =>
      match searchYYYYMMDD line with
      | some (_, txt) => parse_date oracle txt
      | none => none

/-- `TransactionMatch` (`patterns/generic.py`). -/
structure TMatch where
  date : Str
  description : Str
  amount : Q
  isCredit : Bool
  rawLine : Str
deriving DecidableEq, Repr

/-- The tail of `parse_generic_line` (`patterns/generic.py`) from the
positive-amount guard on: refuse a non-positive amount, compute and trim
the description, and refuse a missing or short description. -/
def genericEmit (line date : Str) (em : AmtMatch) (amount : Q) :
    Except Unit (Option TMatch) :=
  let isCredit := em.sufCr = some true
  if qle amount 0 then .ok none
  else
    let startPos :=
      match searchDDMMYYYY line with
      | some (st, txt) => st + txt.length
      | none => 0
    let descr0 := (line.drop startPos).take (em.start - startPos)
    let d1 := pyStrip descr0
    let d2 := d1.dropWhile (fun c => pyIsDigit c || pyIsSpace c)
    let d3 := (d2.reverse.dropWhile (fun c => pyIsDigit c || pyIsSpace c)).reverse
    let descr := pyStrip d3
    if descr.isEmpty || descr.length < 3 then .ok none
    else .ok (some ⟨date, descr, amount, isCredit, line⟩)

/-- `parse_generic_line` (`patterns/generic.py`).  The end-amount is the
last match whose end lies past the midpoint of the line; the fallback
re-runs `DATE_PATTERN_DDMMYYYY.search(line)` and dereferences its result
unconditionally — when the date was found through another format this is
an `AttributeError`, modeled as `.error ()` (each caller of this function
sits inside a `try/except`).  `genericEmit` above is its tail. -/
def parse_generic_line (oracle : Str → Option Str) (line : Str) :
    Except Unit (Option TMatch) :=
  if is_skip_line line then .ok none
  else
    match extract_date oracle line with
    | none => .ok none
    | some date =>
      let ams := amtFindIter line
      if ams.isEmpty then .ok none
      else
        let endM : Option AmtMatch := ams.reverse.find? (fun m => 2 * m.stop > line.length)
        let endME : Except Unit (Option AmtMatch) :=
          match endM with
          | some m => .ok (some m)
          | none =>
            match searchDDMMYYYY line with
            | some (st, txt) => .ok (ams.find? (fun m => m.start > st + txt.length))
            | none => .error ()
        match endME with
        | .error e => .error e
        | .ok none => .ok none
        | .ok (some em) =>
          match pyFloat (em.amt.filter (· ≠ ',')) with
          | none => .ok none
          | some amount => genericEmit line date em amount

/-! ### Column mapping and the CSV stage (`formats/bank_statement.py`) -/

/-- Logical column fields. -/
inductive CField where
  | date | descr | debit | credit | balance | reference
deriving DecidableEq, Repr

/-- A column mapping (the `column_mapping` dict): absent key = `none`. -/
structure ColMap where
  date : Option Nat := none
  descr : Option Nat := none
  debit : Option Nat := none
  credit : Option Nat := none
  balance : Option Nat := none
  reference : Option Nat := none
deriving DecidableEq, Repr

/-- Dict lookup. -/
def ColMap.get (m : ColMap) : CField → Option Nat
  | .date => m.date
  | .descr => m.descr
  | .debit => m.debit
  | .credit => m.credit
  | .balance => m.balance
  | .reference => m.reference

/-- Dict assignment. -/
def ColMap.set (m : ColMap) (f : CField) (j : Nat) : ColMap :=
  match f with
  | .date => { m with date := some j }
  | .descr => { m with descr := some j }
  | .debit => { m with debit := some j }
  | .credit => { m with credit := some j }
  | .balance => { m with balance := some j }
  | .reference => { m with reference := some j }

/-- The empty mapping (falsy dict). -/
def ColMap.empty : ColMap := {}

/-- The `header_keywords` dict of `_parse_csv`, in insertion order. -/
def csvFieldVars : List (CField × List Str) :=
  [(.date, [S "date", S "posting", S "transaction", S "dt"]),
   (.descr, [S "description", S "narration", S "merchant", S "payee"]),
   (.debit, [S "debit", S "withdrawal", S "dr", S "amount"]),
   (.credit, [S "credit", S "deposit", S "cr"]),
   (.balance, [S "balance", S "closing"]),
   (.reference, [S "reference", S "ref", S "chq", S "txn"])]

/-- The header keywords checked by `_has_csv_structure`. -/
def csvStructureKw : List Str :=
  [S "date", S "description", S "narration", S "debit", S "credit",
   S "amount", S "balance", S "reference", S "value"]

/-- `_has_csv_structure`. -/
def has_csv_structure (text : Str) : Bool :=
  let lines := pySplitlines text
  if lines.isEmpty then false
  else
    (lines.take 5).any (fun line =>
      if (pyStrip line).isEmpty then false
      else if (pySplit line ',').length ≥ 4 then
        (csvStructureKw.countP (fun kw => pyContains (pyLower line) kw)) ≥ 3
      else false)

/-- One header-candidate line of `_parse_csv`'s header loop: for each
field whose first matching variation occurs in the lowered line, record
the first comma-part containing that variation (only if the field is not
yet mapped) and count the field as found. -/
def csvHeaderLine (mp0 : ColMap) (line : Str) : ColMap × Nat :=
  let ll := pyLower line
  let parts := pySplit line ','
  csvFieldVars.foldl
    (fun (st : ColMap × Nat) fv =>
      match fv.2.find? (fun var => pyContains ll var) with
      | some var =>
        let j? := (List.range parts.length).find?
          (fun j => pyContains (pyLower (parts.getD j [])) var)
        let mp :=
          match j? with
          | some j => if (st.1.get fv.1).isNone then st.1.set fv.1 j else st.1
          | none => st.1
        (mp, st.2 + 1)
      | none => st)
    (mp0, 0)

/-- `_parse_csv`'s header search: the mapping accumulates over all lines;
the header index is the first line with at least three found fields
(`none` models `header_idx = -1`). -/
def csvFindHeader : List Str → ColMap → Nat → ColMap × Option Nat
  | [], mp, _ => (mp, none)
  | l :: ls, mp, i =>
    let r := csvHeaderLine mp l
    if r.2 ≥ 3 then (r.1, some i) else csvFindHeader ls r.1 (i + 1)

/-- The credit-indicator keywords of the CSV stage. -/
def csvCreditKw : List Str :=
  [S "cr", S "credit", S "deposit", S "neft", S "rtgs", S "imps"]

/-- The debit/credit routing of a CSV data row: credit-keyword narrations
move a positive lone debit (or the debit of a row with an empty credit
column) to the credit side. -/
def csvDC (narr0 debitStr creditStr : Str) (debit0 credit0 : Q) : Q × Q :=
  let kw := csvCreditKw.any (fun k => pyContains (pyLower narr0) k)
  if qlt 0 debit0 && qeq credit0 0 then
    (if kw then (0, debit0) else (debit0, credit0))
  else if qlt 0 credit0 && qeq debit0 0 then (debit0, credit0)
  else if !debitStr.isEmpty && creditStr.isEmpty then
    (if kw then (0, debit0) else (debit0, credit0))
  else (debit0, credit0)

/-- The tail of a CSV data row: refuse the row when the routed debit and
credit are both zero, otherwise build the draft. -/
def csvEmit (dateN narr0 : Str) (dc : Q × Q) (balance : Q) : Option Tx :=
  if qeq dc.1 0 && qeq dc.2 0 then none
  else
    let narr := clean_description narr0
    some ⟨dateN, narr, narr, dateN, dc.1, dc.2, balance, [], [],
      (if qlt 0 dc.2 then S "credit" else S "debit"), narr, none⟩

/-- One data row of `_parse_csv`. -/
def csvRow (oracle : Str → Option Str) (mp : ColMap) (line : Str) : Option Tx :=
  let parts := pySplit line ','
  let getf : CField → Str := fun f =>
    match mp.get f with
    | some j => if j < parts.length then pyStrip (parts.getD j []) else []
    | none => []
  let dateStr := getf .date
  let narr0 := getf .descr
  let debitStr := getf .debit
  let creditStr := getf .credit
  let balanceStr := getf .balance
  if dateStr.isEmpty || (debitStr.isEmpty && creditStr.isEmpty) then none
  else
    match parse_date oracle dateStr with
    | none => none
    | some dateN =>
      let debit0 := if debitStr.isEmpty then 0 else parse_amount debitStr
      let credit0 := if creditStr.isEmpty then 0 else parse_amount creditStr
      let balance := if balanceStr.isEmpty then 0 else parse_amount balanceStr
      csvEmit dateN narr0 (csvDC narr0 debitStr creditStr debit0 credit0) balance

/-- `_parse_csv`: find the header, then parse every later non-blank row. -/
def parse_csv (oracle : Str → Option Str) (text : Str) : List Tx :=
  let lines := pySplitlines text
  if lines.isEmpty then []
  else
    let hdr := csvFindHeader lines ColMap.empty 0
    (lines.enum).filterMap (fun il =>
      let skip :=
        (match hdr.2 with
         | some h => il.1 ≤ h
         | none => false) || (pyStrip il.2).isEmpty
      if skip then none else csvRow oracle hdr.1 il.2)

/-! ### The validator as used by the bank parser
(`utils/validation.py: validate_transaction`) -/

/-- `validate_transaction(...).is_valid` on records built by the
strategies of this development: every constructor sets the required keys
and numeric `debit`/`credit`, so the only reachable hard errors are an
empty date and a missing/short description. -/
def validate_transaction (t : Tx) : Bool :=
  !t.date.isEmpty && !t.description.isEmpty && (pyStrip t.description).length ≥ 3

/-! ### Adaptive stage: column-based strategy
(`formats/bank_statement.py`) -/

/-- `_detect_delimiter`: count `, \t | ;` over the first five lines and
take the first maximum (`max` over the dict items in insertion order);
default to `,` when nothing occurs. -/
def detect_delimiter (lines : List Str) : Char :=
  if lines.isEmpty then ','
  else
    let sample := lines.take 5
    let counts := [',', '\t', '|', ';'].map
      (fun d => (d, sample.foldl (fun a l => a + l.countP (· = d)) 0))
    let best := counts.foldl
      (fun (b : Char × Nat) p => if p.2 > b.2 then p else b) (',', 0)
    if best.2 > 0 then best.1 else ','

/-- The `header_keywords` dict of `_map_columns`, in insertion order. -/
def adaptFieldVars : List (CField × List Str) :=
  [(.date, [S "date", S "posting", S "transaction", S "dt"]),
   (.descr, [S "description", S "narration", S "merchant", S "payee", S "particulars"]),
   (.debit, [S "debit", S "withdrawal", S "dr", S "amount"]),
   (.credit, [S "credit", S "deposit", S "cr"]),
   (.balance, [S "balance", S "closing", S "current"]),
   (.reference, [S "reference", S "ref", S "chq", S "txn", S "cheque"])]

/-- One line of `_map_columns`: for each part in order, assign the first
still-unmapped field one of whose variations occurs in the lowered
stripped part (the source breaks out of the field loop only after a new
assignment). -/
def mapColumnsLine (mp0 : ColMap) (line : Str) (delim : Char) : ColMap × Nat :=
  ((pySplit line delim).enum).foldl
    (fun (st : ColMap × Nat) jp =>
      let pl := pyLower (pyStrip jp.2)
      match adaptFieldVars.find?
          (fun fv => fv.2.any (fun v => pyContains pl v) && (st.1.get fv.1).isNone) with
      | some fv => (st.1.set fv.1 jp.1, st.2 + 1)
      | none => st)
    (mp0, 0)

/-- `_map_columns`: scan the first three lines, accumulating the mapping;
return at the first line with at least three new assignments, otherwise
return whatever accumulated. -/
def map_columns (lines : List Str) (delim : Char) : ColMap :=
  let rec go : List Str → ColMap → ColMap
    | [], mp => mp
    | l :: ls, mp =>
      if (pyStrip l).isEmpty then go ls mp
      else
        let r := mapColumnsLine mp l delim
        if r.2 ≥ 3 then r.1 else go ls r.1
  go (lines.take 3) ColMap.empty

/-- `_find_data_start`. -/
def find_data_start (lines : List Str) (mp : ColMap) : Nat :=
  if lines.isEmpty || mp = ColMap.empty then 0
  else
    match (lines.enum).find? (fun il =>
        ([S "date", S "description", S "debit", S "credit", S "balance"].countP
          (fun kw => pyContains (pyLower il.2) kw)) ≥ 2) with
    | some il => min (il.1 + 1) (lines.length - 1)
    | none => 1

/-- `_split_line`. -/
def split_line (line : Str) (delim : Char) : List Str :=
  if line.isEmpty then [] else (pySplit line delim).map pyStrip

/-- `_extract_transaction_from_columns` (the unused `context_lines`
argument is dropped). -/
def extract_from_columns (oracle : Str → Option Str) (parts : List Str)
    (mp : ColMap) : Option Tx :=
  if parts.isEmpty || mp = ColMap.empty then none
  else
    let getf : CField → Str := fun f =>
      match mp.get f with
      | some j => if j < parts.length then pyStrip (parts.getD j []) else []
      | none => []
    let dateStr := getf .date
    let descr0 := getf .descr
    let debitStr := getf .debit
    let creditStr := getf .credit
    let balanceStr := getf .balance
    let reference := getf .reference
    match (if dateStr.isEmpty then none else parse_date oracle dateStr) with
    | none => none
    | some dateN =>
      let debit := if debitStr.isEmpty then 0 else parse_amount debitStr
      let credit := if creditStr.isEmpty then 0 else parse_amount creditStr
      let balance := if balanceStr.isEmpty then 0 else parse_amount balanceStr
      if qeq debit 0 && qeq credit 0 then none
      else
        let d := clean_description descr0
        some ⟨dateN, d, d, dateN, debit, credit, balance, reference, [],
          (if qlt 0 credit then S "credit" else S "debit"), d, none⟩

/-- `_parse_column_based`. -/
def parse_column_based (oracle : Str → Option Str) (lines : List Str) : List Tx :=
  let delim := detect_delimiter lines
  let mp := map_columns lines delim
  if mp = ColMap.empty then []
  else
    let ds := find_data_start lines mp
    (lines.enum).filterMap (fun il =>
      if il.1 < ds then none
      else
        let line := pyStrip il.2
        if line.isEmpty || is_skip_line line then none
        else
          match extract_from_columns oracle (split_line line delim) mp with
          | some tx => if validate_transaction tx then some tx else none
          | none => none)

/-! ### Adaptive stage: multi-line and Indian-format strategies
(`formats/bank_statement.py`) -/

/-- `re.search(r'[A-Z0-9]{6,}', s)`: maximal run of capitals/digits of
length at least six, from the leftmost position where one starts. -/
def searchUpperRun (s : Str) : Option Str :=
  (searchWith (fun cs =>
    let r := cs.takeWhile (fun c => ('A' ≤ c && c ≤ 'Z') || pyIsDigit c)
    if r.length ≥ 6 then some r else none) s).map Prod.snd

/-- The reference scan of `_parse_transaction_group` over the following
two lines (the last assignment wins). -/
def refScan (lines : List Str) (start : Nat) : Str :=
  (List.range 2).foldl
    (fun (r : Str) k =>
      let i := start + 1 + k
      if i < min (start + 3) lines.length then
        let line := pyStrip (lines.getD i [])
        if line.isEmpty || line.length < 5 then r
        else if pyContains (pyLower line) (S "ref") ||
            pyContains (pyLower line) (S "reference") then
          match searchUpperRun line with
          | some g => g
          | none => r
        else r
      else r)
    []

/-- `_parse_transaction_group`. -/
def parse_transaction_group (oracle : Str → Option Str) (lines : List Str)
    (start : Nat) : Except Unit (Option Tx) :=
  if start ≥ lines.length then .ok none
  else
    let mainLine := pyStrip (lines.getD start [])
    if mainLine.isEmpty || is_skip_line mainLine then .ok none
    else
      match parse_generic_line oracle mainLine with
      | .error e => .error e
      | .ok none => .ok none
      | .ok (some m) =>
        .ok (some ⟨m.date, m.description, m.description, m.date,
          (if m.isCredit then 0 else m.amount), (if m.isCredit then m.amount else 0),
          0, refScan lines start, [],
          (if m.isCredit then S "credit" else S "debit"), m.description, none⟩)

/-- `_count_transaction_lines` inner loop over up to three lines. -/
def countTLGo (oracle : Str → Option Str) (lines : List Str) :
    List Nat → Nat → Except Unit Nat
  | [], c => .ok c
  | i :: is, c =>
    let line := pyStrip (lines.getD i [])
    if line.isEmpty then countTLGo oracle lines is c
    else if (searchDDMMYYYY line).isSome then .ok c
    else if line.length < 20 || charAt line 0 = ' ' || charAt line 0 = '\t' then
      countTLGo oracle lines is (c + 1)
    else
      match parse_generic_line oracle line with
      | .error e => .error e
      | .ok (some _) => .ok c
      | .ok none => countTLGo oracle lines is (c + 1)

/-- `_count_transaction_lines`. -/
def count_transaction_lines (oracle : Str → Option Str) (lines : List Str)
    (start : Nat) : Except Unit Nat :=
  if start ≥ lines.length then .ok 0
  else
    countTLGo oracle lines
      ((List.range (min (start + 4) lines.length - (start + 1))).map (· + start + 1)) 1

/-- `finditer(r'INR ([\d,]+\.\d{2})')` at index `i`: group 1 and the
match end. -/
def inrAt (s : Str) (i : Nat) : Option (Str × Nat) :=
  if (S "INR ").isPrefixOf (s.drop i) then
    let r2 := s.drop (i + 4)
    let run := r2.takeWhile (fun c => pyIsDigit c || c = ',')
    if run.isEmpty then none
    else
      match r2.drop run.length with
      | '.' :: a :: b :: _ =>
        if pyIsDigit a && pyIsDigit b then
          some (run ++ ['.', a, b], i + 4 + run.length + 3)
        else none
      | _ => none
  else none

/-- `finditer(r'INR ([\d,]+\.\d{2})')` worker. -/
def inrFindIterGo (s : Str) : Nat → Nat → List Str
  | 0, _ => []
  | fuel+1, i =>
    if i < s.length then
      match inrAt s i with
      | some r => r.1 :: inrFindIterGo s fuel r.2
      | none => inrFindIterGo s fuel (i + 1)
    else []

/-- The `INR`-amount group-1 texts of a line. -/
def inrFindIter (s : Str) : List Str := inrFindIterGo s (s.length + 1) 0

/-- `_parse_indian_bank_line`.  In the source the `and` in the credit test
binds tighter than the surrounding `or`s. -/
def parse_indian_bank_line (oracle : Str → Option Str) (line : Str) : Option Tx :=
  match searchIndianDate line with
  | none => none
  | some (st, txt) =>
    match parse_date oracle txt with
    | none => none
    | some dateN =>
      let after := pyStrip (line.drop (st + txt.length))
      let ams := inrFindIter after
      match ams.head? with
      | none => none
      | some first =>
        let firstAmount := parse_amount first
        let lu := pyUpper line
        let isCredit :=
          pyContains lu (S "CREDIT INTEREST") ||
          (pyContains lu (S "INTEREST") && pyContains lu (S "CREDIT")) ||
          pyContains lu (S "NEFT") || pyContains lu (S "RTGS") ||
          pyContains lu (S "IMPS") || pyContains lu (S "TRANSFER IN")
        let dashPos := pyFind after (S " - ")
        let dc : Q × Q :=
          if pyContains lu (S "CREDIT INTEREST") then (0, firstAmount)
          else if dashPos.isSome && !isCredit then (firstAmount, 0)
          else if isCredit then (0, firstAmount)
          else (firstAmount, 0)
        let descr0 :=
          match pyFind after (S "INR") with
          | some e => pyStrip (after.take e)
          | none => after
        let descr := clean_description descr0
        some ⟨dateN, descr, descr, dateN, dc.1, dc.2, 0, [], [],
          (if qlt 0 dc.2 then S "credit" else S "debit"), descr, none⟩

/-- `_parse_indian_bank_format`. -/
def parse_indian_format (oracle : Str → Option Str) (lines : List Str) : List Tx :=
  match (lines.enum).find? (fun il =>
      pyContains il.2 (S "Date Transaction Details Debits Credits Balance")) with
  | none => []
  | some hd =>
    (lines.enum).filterMap (fun il =>
      if il.1 ≤ hd.1 then none
      else
        let line := pyStrip il.2
        if line.isEmpty || line.length < 10 then none
        else if [S "total", S "ending balance", S "opening balance",
            S "account summary"].any (fun t => pyContains (pyLower line) t) then none
        else parse_indian_bank_line oracle line)

/-- The `while` loop of `_parse_multiline_transactions` (fuel ≥ number of
lines suffices: the index advances by at least one each step). -/
def mlLoop (oracle : Str → Option Str) (lines : List Str) :
    Nat → Nat → Except Unit (List Tx)
  | 0, _ => .ok []
  | fuel+1, i =>
    if i + 1 < lines.length then
      match parse_transaction_group oracle lines i with
      | .error e => .error e
      | .ok (some tx) =>
        match count_transaction_lines oracle lines i with
        | .error e => .error e
        | .ok c => (mlLoop oracle lines fuel (i + c)).map (tx :: ·)
      | .ok none => mlLoop oracle lines fuel (i + 1)
    else .ok []

/-- `_parse_multiline_transactions`: the Indian format short-circuits when
it finds anything. -/
def parse_multiline (oracle : Str → Option Str) (lines : List Str) :
    Except Unit (List Tx) :=
  let indian := parse_indian_format oracle lines
  if !indian.isEmpty then .ok indian
  else mlLoop oracle lines (lines.length + 1) 0

/-! ### Adaptive stage: single-line strategy and the fallback stage -/

/-- `_convert_generic_match_to_transaction` (this dict carries an
`'amount'` key). -/
def convert_generic_match (m : TMatch) : Tx :=
  ⟨m.date, m.description, m.description, m.date,
   (if m.isCredit then 0 else m.amount), (if m.isCredit then m.amount else 0),
   0, [], [], (if m.isCredit then S "credit" else S "debit"), m.description,
   some m.amount⟩

/-- `_parse_single_line_transactions`. -/
def parse_single_line (oracle : Str → Option Str) : List Str → Except Unit (List Tx)
  | [] => .ok []
  | l :: ls =>
    if is_skip_line l || l.length < 20 then parse_single_line oracle ls
    else
      match parse_generic_line oracle l with
      | .error e => .error e
      | .ok r =>
        match parse_single_line oracle ls with
        | .error e => .error e
        | .ok rest =>
          match r with
          | some m =>
            if qlt 0 m.amount then .ok (convert_generic_match m :: rest) else .ok rest
          | none => .ok rest

/-- `re.sub(r'^[^\w]+|[^\w]+$', '', s)`: strip non-word runs from both
ends. -/
def stripNonWordEnds (s : Str) : Str :=
  ((s.dropWhile (fun c => !pyIsWord c)).reverse.dropWhile (fun c => !pyIsWord c)).reverse

/-- The credit keywords of `_extract_transaction_by_pattern`. -/
def patternCreditKw : List Str :=
  [S "cr", S "credit", S "deposit", S "neft", S "rtgs", S "imps", S "transfer in"]

/-- The explicit-pattern part of `_extract_transaction_by_pattern`. -/
def extract_by_pattern_rest (oracle : Str → Option Str) (line : Str) :
    Except Unit (Option Tx) :=
  match searchDDMMYYYY line with
  | none => .ok none
  | some (st, txt) =>
    match parse_date oracle txt with
    | none => .ok none
    | some dateN =>
      let afterDate := line.drop (st + txt.length)
      match (amtFindIter afterDate).head? with
      | none => .ok none
      | some a0 =>
        let amount := parse_amount a0.amt
        if qle amount 0 then .ok none
        else
          let fpos := (pyFind afterDate a0.amt).getD 0
          let descr0 := pyStrip ((line.drop (st + txt.length)).take fpos)
          let descr := stripNonWordEnds descr0
          let isCredit :=
            match a0.sufCr with
            | some b => b
            | none => patternCreditKw.any (fun k => pyContains (pyLower descr) k)
          let d := clean_description descr
          .ok (some ⟨dateN, d, d, dateN,
            (if isCredit then 0 else amount), (if isCredit then amount else 0),
            0, [], [], (if isCredit then S "credit" else S "debit"), d, none⟩)

/-- `_extract_transaction_by_pattern`. -/
def extract_transaction_by_pattern (oracle : Str → Option Str) (line : Str) :
    Except Unit (Option Tx) :=
  match parse_generic_line oracle line with
  | .error e => .error e
  | .ok r =>
    match r with
    | some m =>
      if qlt 0 m.amount then .ok (some (convert_generic_match m))
      else extract_by_pattern_rest oracle line
    | none => extract_by_pattern_rest oracle line

/-- `_parse_generic_fallback`. -/
def parse_generic_fallback_go (oracle : Str → Option Str) :
    List Str → Except Unit (List Tx)
  | [] => .ok []
  | l0 :: ls =>
    let line := pyStrip l0
    if line.isEmpty || line.length < 15 then parse_generic_fallback_go oracle ls
    else if is_skip_line line then parse_generic_fallback_go oracle ls
    else
      match extract_transaction_by_pattern oracle line with
      | .error e => .error e
      | .ok r =>
        match parse_generic_fallback_go oracle ls with
        | .error e => .error e
        | .ok rest =>
          match r with
          | some tx => .ok (tx :: rest)
          | none => .ok rest

/-- `_parse_generic_fallback`. -/
def parse_generic_fallback (oracle : Str → Option Str) (text : Str) :
    Except Unit (List Tx) :=
  parse_generic_fallback_go oracle (pySplitlines text)

/-! ### `_parse_adaptive`, the AI stage and `BankStatementParser.parse` -/

/-- The per-transaction key hashed by `_parse_adaptive`
(`hash(f"{date}-{description}-{debit}-{credit}")`); the tuple stands in
for the hash (a hash collision in Python could only drop an extra
transaction). -/
def adaptKey (t : Tx) : Str × Str × Q × Q := (t.date, t.description, t.debit, t.credit)

/-- Equality of adaptive-stage keys: Python hashes the formatted string,
and two floats format alike exactly when they are equal. -/
def adaptKeyEq (a b : Str × Str × Q × Q) : Bool :=
  a.1 == b.1 && a.2.1 == b.2.1 && qeq a.2.2.1 b.2.2.1 && qeq a.2.2.2 b.2.2.2

/-- Accumulate one strategy result, skipping already-seen keys. -/
def adaptiveFold (st : List Tx × List (Str × Str × Q × Q)) (result : List Tx) :
    List Tx × List (Str × Str × Q × Q) :=
  result.foldl
    (fun acc tx =>
      let k := adaptKey tx
      if acc.2.any (fun e => adaptKeyEq e k) then acc
      else (acc.1 ++ [tx], acc.2 ++ [k]))
    st

/-- `_parse_adaptive`: strip and drop blank lines, then run the three
strategies in order while below twenty transactions; a strategy's
exception is caught and skipped. -/
def parse_adaptive (oracle : Str → Option Str) (text : Str) : List Tx :=
  let lines := ((pySplitlines text).map pyStrip).filter (fun l => !l.isEmpty)
  let strategies : List (Except Unit (List Tx)) :=
    [.ok (parse_column_based oracle lines),
     parse_multiline oracle lines,
     parse_single_line oracle lines]
  (strategies.foldl
    (fun (st : List Tx × List (Str × Str × Q × Q)) strat =>
      if st.1.length < 20 then
        match strat with
        | .ok result => adaptiveFold st result
        | .error _ => st
      else st)
    ([], [])).1

/-- `_parse_with_ai` in an environment with neither `OPENAI_KEY` nor
`GEMINI_API_KEY` set: it returns the empty list without any network
call. -/
def parse_with_ai (_text : Str) : List Tx := []

/-- `ParseResult` (`formats/base.py`); the metadata dict is represented
by its three entries. -/
structure ParseResult where
  transactions : List Tx
  statementType : Str
  rawText : Str
  metaParser : Str
  metaTxCount : Nat
  metaWarningsCount : Nat
  errors : List Str
  warnings : List Str
deriving DecidableEq, Repr

/-- `BankStatementParser.parse`.  Stage exceptions are caught into
warnings; stages whose model is total contribute no warning.  The final
deduplication and validation are outside any `try` in the source and are
total. -/
def BankStatementParser.parse (oracle : Str → Option Str) (text : Str) : ParseResult :=
  let t1 : List Tx :=
    if text.contains ',' && has_csv_structure text then parse_csv oracle text else []
  let t2 := if t1.length < 5 then t1 ++ parse_adaptive oracle text else t1
  let t3 := if t2.length < 3 then t2 ++ parse_with_ai text else t2
  let s4 : List Tx × List Str :=
    if t3.length < 1 then
      match parse_generic_fallback oracle text with
      | .ok r => (t3 ++ r, [])
      | .error _ => (t3, [S "Fallback parsing failed"])
    else (t3, [])
  let deduped := deduplicate_transactions s4.1
  let vw : List Tx × List Str :=
    deduped.foldl
      (fun acc tx =>
        if validate_transaction tx then (acc.1 ++ [tx], acc.2)
        else (acc.1, acc.2 ++ [S "Invalid transaction: " ++ tx.description]))
      ([], s4.2)
  ⟨vw.1, S "bank", text, S "BankStatementParser", vw.1.length, vw.2.length, [], vw.2⟩

/-! ### The multi-line strategy of the generic parser
(`formats/generic_parser.py: _parse_multi_line_transactions`) -/

/-- The tail of `^(\d{1,2})\s*₹?\s*([0-9,]+\.\d{2})\s*(?:Dr|Cr)?$`
(IGNORECASE) after the day digits: returns group 2 on a full match. -/
def dayAmountCore (r3 : Str) : Option Str :=
  let run := r3.takeWhile (fun c => pyIsDigit c || c = ',')
  if run.isEmpty then none
  else
    match r3.drop run.length with
    | '.' :: a :: b :: r4 =>
      if pyIsDigit a && pyIsDigit b then
        let r5 := r4.drop (r4.takeWhile pyIsSpace).length
        match r5 with
        | [] => some (run ++ ['.', a, b])
        | [x, y] =>
          if ((x = 'd' || x = 'D' || x = 'c' || x = 'C') && (y = 'r' || y = 'R')) then
            some (run ++ ['.', a, b])
          else none
        | _ => none
      else none
    | _ => none

/-- The amount-and-suffix part of the day-amount pattern, after the
optional whitespace and rupee sign. -/
def dayAmountRest (r : Str) : Option Str :=
  let r1 := r.drop (r.takeWhile pyIsSpace).length
  let r2 := if charAt r1 0 = '₹' then r1.drop 1 else r1
  dayAmountCore (r2.drop (r2.takeWhile pyIsSpace).length)

/-- `day_match`: `re.match(r'^(\d{1,2})\s*₹?\s*([0-9,]+\.\d{2})\s*(?:Dr|Cr)?$', line2)`,
greedy on the day with backtracking; returns (day, amount). -/
def dayAmountMatch (s : Str) : Option (Str × Str) :=
  let d := s.takeWhile pyIsDigit
  if 2 ≤ d.length then
    match dayAmountRest (s.drop 2) with
    | some amt => some (s.take 2, amt)
    | none => (dayAmountRest (s.drop 1)).map (fun amt => (s.take 1, amt))
  else if 1 ≤ d.length then (dayAmountRest (s.drop 1)).map (fun amt => (s.take 1, amt))
  else none

/-- `re.search(r'(Dr|Cr|DR|CR)', line3, re.IGNORECASE)`: kind of the first
`[dDcC][rR]` pair (`some true` = a `cr` spelling). -/
def drcrSearch (s : Str) : Option Bool :=
  (searchWith (fun cs =>
    match cs with
    | a :: b :: _ =>
      if (a = 'd' || a = 'D') && (b = 'r' || b = 'R') then some false
      else if (a = 'c' || a = 'C') && (b = 'r' || b = 'R') then some true
      else none
    | _ => none) s).map Prod.snd

/-- `re.match(r'^([A-Za-z]{3})\s+(\d{1,2})\s+(?:Dr|Cr)', line3, re.IGNORECASE)`:
returns (month, day). -/
def monDayDrCr (s : Str) : Option (Str × Str) :=
  if (s.take 3).length = 3 && (s.take 3).all pyIsAlpha &&
      !(pyIsAlpha (charAt s 3)) then
    let r := s.drop 3
    let sp := r.takeWhile pyIsSpace
    if sp.isEmpty then none
    else
      let r2 := r.drop sp.length
      let dg := r2.takeWhile pyIsDigit
      let tail2 : Str → Bool := fun t =>
        let sp2 := t.takeWhile pyIsSpace
        !sp2.isEmpty &&
          (match t.drop sp2.length with
           | a :: b :: _ =>
             ((a = 'd' || a = 'D' || a = 'c' || a = 'C') && (b = 'r' || b = 'R'))
           | _ => false)
      if 2 ≤ dg.length && tail2 (r2.drop 2) then some (s.take 3, r2.take 2)
      else if 1 ≤ dg.length && tail2 (r2.drop 1) then some (s.take 3, r2.take 1)
      else none
  else none

/-- One step of `GenericStatementParser._parse_multi_line_transactions`
on a line triple: the draft appended when `line2` is a day+amount line
and `line3` a month+day+`Dr`/`Cr` line (the surrounding loop then skips
three lines). -/
def ml_step (oracle : Str → Option Str) (l1 l2 l3 : Str) : Option Tx :=
  match dayAmountMatch l2 with
  | none => none
  | some da =>
    let drcr := (drcrSearch l3).getD false
    match monDayDrCr l3 with
    | none => none
    | some md =>
      let fullDate := zfill2 md.2 ++ ' ' :: md.1 ++ ' ' :: S "2025"
      match parse_date oracle fullDate with
      | none => none
      | some pd =>
        some ⟨pd, l1, l1, pd, 0,
          (if drcr then parse_amount da.2 else 0), 0, [], [],
          (if drcr then S "credit" else S "debit"), l1, some (parse_amount da.2)⟩

/-! ### Spec-side definitions used by the theorems -/

/-- The spec's gap measure for `_is_credit_transaction`: the character
span between the end of the first amount token and the start of the last
(balance) amount token of the after-value-date portion. -/
def specGapSpan (after : Str) : Nat :=
  match (amtFindIter after).head?, (amtFindIter after).getLast? with
  | some a, some b => b.start - (a.start + a.amt.length)
  | _, _ => 0

/-- Spec side of the line classifier (`§4.1`, amended: the source has no
minimum-length test and its "no alphanumeric content" pattern is the
character class spelled out in `skipP5Excluded`): empty or whitespace;
a rule of dashes/underscores/equals; a `Page N` line; `continued`; `End`;
only characters outside the alphanumeric-and-punctuation class; or a
boilerplate keyword as a whole word of the lowered line. -/
def skipSpec (line : Str) : Prop :=
  pyStrip line = [] ∨
  (pyStrip line ≠ [] ∧ ∀ c ∈ pyStrip line, c = '-' ∨ c = '_' ∨ c = '=') ∨
  skipPagePat (pyStrip line) = true ∨
  pyStrip line = S "continued" ∨
  pyStrip line = S "End" ∨
  (pyStrip line ≠ [] ∧ ∀ c ∈ pyStrip line, ¬ skipP5Excluded c = true) ∨
  (∃ kw ∈ SKIP_KEYWORDS, ∃ i, kw <+: (pyLower line).drop i ∧
    wordB (pyLower line) i = true ∧ wordB (pyLower line) (i + kw.length) = true)

/-- The transactions of the key groups, concatenated in key-first-
occurrence order (the order in which `deduplicate_transactions` visits
them). -/
def joinGroups (txs : List Tx) : List Tx := ((buildGroups txs).map Prod.snd).flatten

/-- A line carrying none of the date shapes any extraction strategy of
`BankStatementParser` anchors on: no `DD/MM/YY(YY)`, `DD Mon YY(YY)`,
`YYYY-MM-DD` or Indian `DD Mon YYYY` match anywhere, and no cell of the
line under any of the delimiters `, \t | ;` parses as a date. -/
def noDateLine (oracle : Str → Option Str) (line : Str) : Bool :=
  (searchDDMMYYYY line).isNone && (searchDDMon line).isNone &&
  (searchYYYYMMDD line).isNone && (searchIndianDate line).isNone &&
  ([',', '\t', '|', ';'].all (fun d =>
    (pySplit line d).all (fun cell => (parse_date oracle cell).isNone)))

/-- No transaction-shaped line in the text: every line of the statement
(and its stripped form, as the strategies strip lines before scanning)
is date-free in the sense of `noDateLine`. -/
def noTxShapedLines (oracle : Str → Option Str) (text : Str) : Prop :=
  ∀ l ∈ pySplitlines text ++ (pySplitlines text).map pyStrip,
    noDateLine oracle l = true

/-- Concrete transactions for the deduplication analysis: two share the
dedup key `(5, 01/01/2024)` but carry distinct references (never
duplicates), one sits between them with a different key. -/
def c2alpha : Tx :=
  ⟨S "01/01/2024", S "alpha", S "n1", S "01/01/2024", 0, 0, 0, S "R1", [],
   S "debit", S "alpha", some 5⟩

/-- Second dedup-analysis transaction (different key). -/
def c2gamma : Tx :=
  ⟨S "01/01/2024", S "gamma", [], S "01/01/2024", 0, 0, 0, [], [],
   S "debit", S "gamma", some 7⟩

/-- Third dedup-analysis transaction (same key as the first). -/
def c2beta : Tx :=
  ⟨S "01/01/2024", S "beta", S "n2", S "01/01/2024", 0, 0, 0, S "R2", [],
   S "debit", S "beta", some 5⟩

/-- The type-tag invariant of the implicit claim: a transaction is tagged
`credit` exactly when its credit field is positive, and `debit`
otherwise. -/
def typeTag (t : Tx) : Prop :=
  t.txType = (if qlt 0 t.credit then S "credit" else S "debit")

/-! ## Helper lemmas -/

theorem pyStrip_rdrop (l : Str) :
    pyStrip l = List.rdropWhile pyIsSpace (l.dropWhile pyIsSpace) := rfl

theorem dropWhile_of_prefix_dropWhile (p : Char → Bool) (X Y : Str)
    (hX : X.dropWhile p = X) (hpre : Y <+: X) : Y.dropWhile p = Y := by
  cases Y with
  | nil => rfl
  | cons c t =>
    obtain ⟨r, hr⟩ := hpre
    have hpc : p c = false := by
      by_contra hpc
      have hpc' : p c = true := by revert hpc; cases p c <;> simp
      rw [← hr, List.cons_append, List.dropWhile_cons, hpc'] at hX
      have := congrArg List.length hX
      simp at this
      have hle := ((List.dropWhile_suffix (l := t ++ r) p).sublist).length_le
      simp only [List.length_append] at this hle
      omega
    simp [List.dropWhile_cons, hpc]

theorem pyStrip_idem (s : Str) : pyStrip (pyStrip s) = pyStrip s := by
  rw [pyStrip_rdrop, pyStrip_rdrop]
  have hX : (s.dropWhile pyIsSpace).dropWhile pyIsSpace = s.dropWhile pyIsSpace :=
    List.dropWhile_idempotent _ _
  have hY : (List.rdropWhile pyIsSpace (s.dropWhile pyIsSpace)).dropWhile pyIsSpace =
      List.rdropWhile pyIsSpace (s.dropWhile pyIsSpace) :=
    dropWhile_of_prefix_dropWhile pyIsSpace _ _ hX (List.rdropWhile_prefix _ _)
  rw [hY, List.rdropWhile_idempotent]


theorem parse_date_strip (oracle : Str → Option Str) (s : Str)
    (h : parse_date oracle s = none) : parse_date oracle (pyStrip s) = none := by
  by_cases he : (pyStrip s).isEmpty
  · unfold parse_date
    simp [he]
  · have hs : ¬ s.isEmpty := by
      intro hs
      apply he
      cases s with
      | nil => rfl
      | cons c t => simp at hs
    unfold parse_date at h ⊢
    simp only [he, if_neg, hs] at h ⊢
    rwa [pyStrip_idem]

theorem pySplit_ne_nil (s : Str) (d : Char) : pySplit s d ≠ [] := by
  cases s with
  | nil => simp [pySplit]
  | cons c t =>
    unfold pySplit
    by_cases h : c = d
    · simp [h]
    · simp only [h, if_false]
      cases pySplit t d <;> simp

theorem pySplit_two_of_contains (s : Str) (h : s.contains '.' = true) :
    ∃ p q r, pySplit s '.' = p :: q :: r := by
  induction s with
  | nil => simp at h
  | cons c t ih =>
    by_cases hc : c = '.'
    · refine ⟨[], ?_⟩
      have hne := pySplit_ne_nil t '.'
      cases ht : pySplit t '.' with
      | nil => exact absurd ht hne
      | cons q r => exact ⟨q, r, by simp [pySplit, hc, ht]⟩
    · have ht : t.contains '.' = true := by
        rcases (by simpa using h : '.' = c ∨ '.' ∈ t) with he | hm
        · exact absurd he.symm hc
        · simpa using hm
      obtain ⟨p, q, r, hpqr⟩ := ih ht
      exact ⟨c :: p, q, r, by simp [pySplit, hc, hpqr]⟩

theorem parse_amountE_isOk (s : Str) : ∃ q, parse_amountE s = Except.ok q := by
  unfold parse_amountE
  dsimp only
  by_cases h :
      List.contains (pyStrip (stripCrDr (List.filter (fun c => !currencyChar c) (pyStrip s)))) '.' = true
  · obtain ⟨p, q, r, hpq⟩ := pySplit_two_of_contains _ h
    rw [if_pos h, hpq]
    exact ⟨_, rfl⟩
  · rw [if_neg h]
    exact ⟨_, rfl⟩

/-- C6: `parse_amount` is total — the fallible model `parse_amountE`
(whose only unguarded operation is the `parts[1]` access after
`split('.')`) never raises, returning exactly `parse_amount`; on
unparseable input (empty, non-numeric, trailing garbage) the result
is `0`. -/
theorem parse_amount_total :
    (∀ s : Str, parse_amountE s = Except.ok (parse_amount s)) ∧
    parse_amount (S "") = 0 ∧
    parse_amount (S "no numbers at all!") = 0 ∧
    parse_amount (S "one.two") = 0 := by
  refine ⟨fun s => ?_, by decide, by decide, by decide⟩
  obtain ⟨q, hq⟩ := parse_amountE_isOk s
  simp [parse_amount, hq]

/-- C8: `detect_statement_type` returns `BANK` for every input, and the
top-level `_select_parser` therefore always picks `BankStatementParser`
(the generic/bank path). -/
theorem detect_always_bank (text : Str) :
    detect_statement_type text = StatementType.BANK ∧
    selectParser (detect_statement_type text) =
      ⟨S "BankStatementParser", S "bank"⟩ := by
  refine ⟨rfl, ?_⟩
  show selectParser StatementType.BANK = _
  decide

/-- C4 (code bug): the currency-symbol class `[₹$Rs?\s]` of
`parse_amount` is applied with `re.IGNORECASE`, so it deletes the letters
`r/R/s/S` anywhere in the amount string; a trailing `Dr` or `Cr` marker is
mangled into a bare `D`/`C` before the marker detection runs, the
`float(...)` conversion then fails, and the function returns `0` instead
of the documented signed value. -/
theorem parse_amount_drcr_mangled :
    parse_amount (S "1,234.56 Dr") = 0 ∧
    parse_amount (S "1,234.56 Cr") = 0 ∧
    parse_amount (S "1,234.56 DR") = 0 ∧
    parse_amount (S "1,234.56CR") = 0 := by
  decide

theorem dropWhile_eq_self_of_all {p : Char → Bool} {s : Str}
    (h : ∀ c ∈ s, p c = false) : s.dropWhile p = s := by
  cases s with
  | nil => rfl
  | cons c t => simp [List.dropWhile_cons, h c (by simp)]

theorem takeWhile_eq_nil_of_all {p : Char → Bool} {s : Str}
    (h : ∀ c ∈ s, p c = false) : s.takeWhile p = [] := by
  cases s with
  | nil => rfl
  | cons c t => simp [List.takeWhile_cons, h c (by simp)]

theorem pyStrip_eq_self_of_all {s : Str}
    (h : ∀ c ∈ s, pyIsSpace c = false) : pyStrip s = s := by
  unfold pyStrip
  rw [dropWhile_eq_self_of_all h, dropWhile_eq_self_of_all (by simpa using h),
    List.reverse_reverse]

theorem charAt_mem {s : Str} {i : Nat} (h : i < s.length) : charAt s i ∈ s := by
  unfold charAt
  rw [List.getD_eq_getElem s _ h]
  exact List.getElem_mem h

theorem hasWordPair_false {x1 x2 y1 y2 : Char} {s : Str}
    (h : ∀ c ∈ s, c ≠ x1 ∧ c ≠ x2) : hasWordPair x1 x2 y1 y2 s = false := by
  unfold hasWordPair
  rw [List.any_eq_false]
  intro i hi
  simp only [List.mem_range] at hi
  have hm := charAt_mem hi
  have := h _ hm
  simp [this.1, this.2]

theorem crDrPairAt_false {s : Str}
    (h : ∀ c ∈ s, c ≠ 'c' ∧ c ≠ 'C' ∧ c ≠ 'd' ∧ c ≠ 'D') (p : Nat) :
    crDrPairAt s p = false := by
  unfold crDrPairAt
  by_cases hp : p < s.length
  · have := h _ (charAt_mem hp)
    simp [this.1, this.2.1, this.2.2.1, this.2.2.2]
  · have hc : charAt s p = '\x00' := by
      unfold charAt
      exact List.getD_eq_default _ _ (by omega)
    simp [hc]

theorem stripCrDrGo_eq_drop {s : Str}
    (hs : ∀ c ∈ s, pyIsSpace c = false)
    (hp : ∀ p, crDrPairAt s p = false) :
    ∀ fuel i, s.length ≤ i + fuel → stripCrDrGo s fuel i = s.drop i := by
  intro fuel
  induction fuel with
  | zero =>
    intro i hle
    rw [List.drop_eq_nil_of_le (by omega)]
    rfl
  | succ n ih =>
    intro i hle
    unfold stripCrDrGo
    by_cases hlt : i < s.length
    · have hk : ((s.drop i).takeWhile pyIsSpace).length = 0 := by
        rw [takeWhile_eq_nil_of_all (fun c hc => hs c (List.mem_of_mem_drop hc))]
        rfl
      simp only [hlt, if_true, hk, Nat.add_zero, hp i, Bool.false_eq_true, if_false]
      rw [ih (i + 1) (by omega)]
      rw [List.drop_eq_getElem_cons hlt]
      congr 1
      unfold charAt
      exact List.getD_eq_getElem s _ hlt
    · simp only [hlt, if_false]
      rw [List.drop_eq_nil_of_le (by omega)]

theorem stripCrDr_eq_self {s : Str}
    (hs : ∀ c ∈ s, pyIsSpace c = false)
    (hp : ∀ c ∈ s, c ≠ 'c' ∧ c ≠ 'C' ∧ c ≠ 'd' ∧ c ≠ 'D') :
    stripCrDr s = s := by
  unfold stripCrDr
  rw [stripCrDrGo_eq_drop hs (crDrPairAt_false hp) (s.length + 1) 0 (by omega)]
  rfl

theorem pySplit_no_delim {s : Str} {d : Char} (h : ∀ c ∈ s, c ≠ d) :
    pySplit s d = [s] := by
  induction s with
  | nil => rfl
  | cons c t ih =>
    have hr := ih (fun x hx => h x (by simp [hx]))
    simp [pySplit, h c (by simp), hr]

theorem pySplit_append {a b : Str} {d : Char} (h : ∀ c ∈ a, c ≠ d) :
    pySplit (a ++ d :: b) d = a :: pySplit b d := by
  induction a with
  | nil => simp [pySplit]
  | cons c t ih =>
    have hr := ih (fun x hx => h x (by simp [hx]))
    simp only [List.cons_append, pySplit, h c (by simp), if_false, List.append_eq]
    rw [hr]

theorem takeWhile_all_append {p : Char → Bool} {a b : Str} {x : Char}
    (ha : ∀ c ∈ a, p c = true) (hx : p x = false) :
    (a ++ x :: b).takeWhile p = a := by
  induction a with
  | nil => simp [List.takeWhile_cons, hx]
  | cons c t ih =>
    have := ih (fun y hy => ha y (by simp [hy]))
    simp [List.takeWhile_cons, ha c (by simp), this]

theorem digitComma_facts (c : Char) (h : c ∈ S "0123456789,") :
    pyIsSpace c = false ∧ currencyChar c = false ∧ c ≠ '.' ∧
    c ≠ 'c' ∧ c ≠ 'C' ∧ c ≠ 'd' ∧ c ≠ 'D' ∧ c ≠ '+' ∧ c ≠ '-' := by
  have he : S "0123456789," =
      ['0', '1', '2', '3', '4', '5', '6', '7', '8', '9', ','] := rfl
  rw [he] at h
  simp only [List.mem_cons, List.not_mem_nil, or_false] at h
  rcases h with rfl | rfl | rfl | rfl | rfl | rfl | rfl | rfl | rfl | rfl | rfl <;> decide

theorem digit_isDigit (c : Char) (h : c ∈ S "0123456789") : pyIsDigit c = true := by
  have he : S "0123456789" =
      ['0', '1', '2', '3', '4', '5', '6', '7', '8', '9'] := rfl
  rw [he] at h
  simp only [List.mem_cons, List.not_mem_nil, or_false] at h
  rcases h with rfl | rfl | rfl | rfl | rfl | rfl | rfl | rfl | rfl | rfl <;> decide

theorem digit_mem_comma {c : Char} (h : c ∈ S "0123456789") : c ∈ S "0123456789," := by
  have he : S "0123456789," = S "0123456789" ++ [','] := rfl
  rw [he]
  exact List.mem_append_left _ h

theorem comma_filter_digit {c : Char} (h : c ∈ S "0123456789,") (hc : c ≠ ',') :
    c ∈ S "0123456789" := by
  have he : S "0123456789," = S "0123456789" ++ [','] := rfl
  rw [he] at h
  rcases List.mem_append.mp h with h1 | h1
  · exact h1
  · simp at h1
    exact absurd h1 hc

/-- The exact value computed by `parse_amount` on a decimal numeral whose
integer part may carry thousands separators: the commas are stripped only
from the integer part, which yields the combined decimal value. -/
theorem parse_amount_decimal (ip f : Str)
    (hip : ∀ c ∈ ip, c ∈ S "0123456789,")
    (hf : f ≠ []) (hfd : ∀ c ∈ f, c ∈ S "0123456789") :
    parse_amount (ip ++ '.' :: f) =
      ⟨(digitsVal (ip.filter (fun c => c ≠ ',')) : Int) * 10 ^ f.length + digitsVal f,
        10 ^ f.length⟩ := by
  have hsAll : ∀ c ∈ ip ++ '.' :: f,
      pyIsSpace c = false ∧ currencyChar c = false ∧
      c ≠ 'c' ∧ c ≠ 'C' ∧ c ≠ 'd' ∧ c ≠ 'D' := by
    intro c hc
    have key : c ∈ S "0123456789," ∨ c = '.' := by
      rcases List.mem_append.mp hc with h1 | h2
      · exact Or.inl (hip c h1)
      · rcases List.mem_cons.mp h2 with rfl | h3
        · exact Or.inr rfl
        · exact Or.inl (digit_mem_comma (hfd c h3))
    rcases key with hk | rfl
    · have := digitComma_facts c hk
      exact ⟨this.1, this.2.1, this.2.2.2.1, this.2.2.2.2.1,
        this.2.2.2.2.2.1, this.2.2.2.2.2.2.1⟩
    · exact ⟨by decide, by decide, by decide, by decide, by decide, by decide⟩
  have hstrip : pyStrip (ip ++ '.' :: f) = ip ++ '.' :: f :=
    pyStrip_eq_self_of_all (fun c hc => (hsAll c hc).1)
  have hfilter : List.filter (fun c => !currencyChar c) (ip ++ '.' :: f) =
      ip ++ '.' :: f :=
    List.filter_eq_self.mpr (fun c hc => by simp [(hsAll c hc).2.1])
  have hcr : hasWordPair 'c' 'C' 'r' 'R' (ip ++ '.' :: f) = false :=
    hasWordPair_false (fun c hc => ⟨(hsAll c hc).2.2.1, (hsAll c hc).2.2.2.1⟩)
  have hdr : hasWordPair 'd' 'D' 'r' 'R' (ip ++ '.' :: f) = false :=
    hasWordPair_false (fun c hc => ⟨(hsAll c hc).2.2.2.2.1, (hsAll c hc).2.2.2.2.2⟩)
  have hcrdr : stripCrDr (ip ++ '.' :: f) = ip ++ '.' :: f :=
    stripCrDr_eq_self (fun c hc => (hsAll c hc).1)
      (fun c hc => ⟨(hsAll c hc).2.2.1, (hsAll c hc).2.2.2.1,
        (hsAll c hc).2.2.2.2.1, (hsAll c hc).2.2.2.2.2⟩)
  have hdot : List.contains (ip ++ '.' :: f) '.' = true := by
    simp
  have hipdot : ∀ c ∈ ip, c ≠ '.' := fun c hc => (digitComma_facts c (hip c hc)).2.2.1
  have hfdot : ∀ c ∈ f, c ≠ '.' :=
    fun c hc => (digitComma_facts c (digit_mem_comma (hfd c hc))).2.2.1
  have hsplit : pySplit (ip ++ '.' :: f) '.' = [ip, f] := by
    rw [pySplit_append hipdot, pySplit_no_delim hfdot]
  have hfall : f.all pyIsDigit = true :=
    List.all_eq_true.mpr (fun c hc => digit_isDigit c (hfd c hc))
  have hDmem : ∀ c ∈ ip.filter (fun c => c ≠ ','), c ∈ S "0123456789" := by
    intro c hc
    rw [List.mem_filter] at hc
    exact comma_filter_digit (hip c hc.1) (by simpa using hc.2)
  have hfloat : pyFloat (ip.filter (fun c => c ≠ ',') ++ '.' :: f) =
      some ⟨(digitsVal (ip.filter (fun c => c ≠ ',')) : Int) * 10 ^ f.length +
        digitsVal f, 10 ^ f.length⟩ := by
    have hcore : pyFloatCore (ip.filter (fun c => c ≠ ',') ++ '.' :: f) =
        some ⟨(digitsVal (ip.filter (fun c => c ≠ ',')) : Int) * 10 ^ f.length +
          digitsVal f, 10 ^ f.length⟩ := by
      unfold pyFloatCore
      have htw : (ip.filter (fun c => c ≠ ',') ++ '.' :: f).takeWhile pyIsDigit =
          ip.filter (fun c => c ≠ ',') :=
        takeWhile_all_append (fun c hc => digit_isDigit c (hDmem c hc)) (by decide)
      have hfne : (!f.isEmpty) = true := by
        cases f with
        | nil => exact absurd rfl hf
        | cons a b => rfl
      rw [htw]
      simp only [List.drop_left]
      rw [if_pos (by simp [hfall, hfne])]
    rcases hD : ip.filter (fun c => c ≠ ',') with _ | ⟨d0, Dt⟩
    · rw [hD] at hcore
      simpa [pyFloat] using hcore
    · have hd0 : d0 ∈ S "0123456789" := hDmem d0 (by rw [hD]; simp)
      have h1 : d0 ≠ '+' := (digitComma_facts d0 (digit_mem_comma hd0)).2.2.2.2.2.2.2.1
      have h2 : d0 ≠ '-' := (digitComma_facts d0 (digit_mem_comma hd0)).2.2.2.2.2.2.2.2
      rw [hD] at hcore
      simpa [pyFloat, h1, h2] using hcore
  have hE : parse_amountE (ip ++ '.' :: f) =
      Except.ok ⟨(digitsVal (ip.filter (fun c => c ≠ ',')) : Int) * 10 ^ f.length +
        digitsVal f, 10 ^ f.length⟩ := by
    unfold parse_amountE
    dsimp only
    rw [hstrip, hfilter, hcrdr, hstrip, hdot, if_pos rfl, hsplit]
    dsimp only [Except.map]
    rw [hfloat]
    simp [hdr]
  rw [parse_amount, hE]

/-- C5: `parse_amount` strips thousands separators only from the integer
portion (everything before the decimal point), so Indian and Western
grouping both parse to the expected value: in general a numeral
`ip.f` with digits-and-commas integer part `ip` and digit fraction `f`
evaluates to the decimal with the commas of `ip` removed, and in
particular `1,00,000.50` parses to `100000.50` and `1,000.50` to
`1000.50`. -/
theorem parse_amount_grouping :
    (∀ ip f : Str, (∀ c ∈ ip, c ∈ S "0123456789,") → f ≠ [] →
        (∀ c ∈ f, c ∈ S "0123456789") →
        parse_amount (ip ++ '.' :: f) =
          ⟨(digitsVal (ip.filter (fun c => c ≠ ',')) : Int) * 10 ^ f.length +
            digitsVal f, 10 ^ f.length⟩) ∧
    parse_amount (S "1,00,000.50") = ⟨10000050, 100⟩ ∧
    parse_amount (S "1,000.50") = ⟨100050, 100⟩ :=
  ⟨parse_amount_decimal, by decide, by decide⟩

/-- Witness for the universally quantified part of
`parse_amount_grouping`, at the spec's own Indian-grouping example. -/
theorem parse_amount_grouping_witness :
    parse_amount (S "1,00,000" ++ '.' :: S "50") =
      ⟨(digitsVal ((S "1,00,000").filter (fun c => c ≠ ',')) : Int) *
        10 ^ (S "50").length + digitsVal (S "50"), 10 ^ (S "50").length⟩ :=
  parse_amount_grouping.1 (S "1,00,000") (S "50") (by decide) (by decide) (by decide)

theorem skip_kw_ne_nil : ∀ kw ∈ SKIP_KEYWORDS, kw ≠ [] := by decide

theorem wordSearch_iff (kw s : Str) (hkw : kw ≠ []) :
    wordSearch kw s = true ↔
      ∃ i, kw <+: s.drop i ∧ wordB s i = true ∧ wordB s (i + kw.length) = true := by
  unfold wordSearch
  rw [List.any_eq_true]
  constructor
  · rintro ⟨i, _, hp⟩
    simp only [Bool.and_eq_true] at hp
    exact ⟨i, List.isPrefixOf_iff_prefix.mp hp.1.1, hp.1.2, hp.2⟩
  · rintro ⟨i, hp, hb1, hb2⟩
    refine ⟨i, ?_, ?_⟩
    · simp only [List.mem_range]
      by_contra hgt
      push_neg at hgt
      have hd : s.drop i = [] := List.drop_eq_nil_of_le (by omega)
      rw [hd, List.prefix_nil] at hp
      exact hkw hp
    · simp only [Bool.and_eq_true]
      exact ⟨⟨List.isPrefixOf_iff_prefix.mpr hp, hb1⟩, hb2⟩

theorem isEmpty_iff_eq_nil {l : Str} : l.isEmpty = true ↔ l = [] := by
  cases l <;> simp

/-- The keyword clause of `is_skip_line` as an existential. -/
theorem skip_keyword_iff (line : Str) :
    (SKIP_KEYWORDS.any (fun kw => wordSearch kw (pyLower line))) = true ↔
      (∃ kw ∈ SKIP_KEYWORDS, ∃ i, kw <+: (pyLower line).drop i ∧
        wordB (pyLower line) i = true ∧ wordB (pyLower line) (i + kw.length) = true) := by
  rw [List.any_eq_true]
  constructor
  · rintro ⟨kw, hkw, hw⟩
    exact ⟨kw, hkw, (wordSearch_iff kw _ (skip_kw_ne_nil kw hkw)).mp hw⟩
  · rintro ⟨kw, hkw, hex⟩
    exact ⟨kw, hkw, (wordSearch_iff kw _ (skip_kw_ne_nil kw hkw)).mpr hex⟩

/-- C7 (counterexample): the claim says every non-empty line shorter than
five characters is skippable, but `is_skip_line` has no minimum-length
test — the four-character line `abcd` is not skipped. -/
theorem is_skip_line_no_min_length :
    is_skip_line (S "abcd") = false ∧ (S "abcd").length < 5 ∧ S "abcd" ≠ [] := by
  decide

/-- C7 (amended): `is_skip_line` returns true exactly when the line is
empty or whitespace, is a rule of dashes/underscores/equals, matches the
`Page N` pattern, equals `continued` or `End`, consists solely of
characters outside the alphanumeric-and-punctuation class, or contains a
boilerplate keyword as a whole word of the lowered line; there is no
minimum-length clause, and a keyword occurring only inside a longer token
(`cr` inside `CREDCLUB`) does not make a line skippable. -/
theorem is_skip_line_characterization :
    (∀ line : Str, is_skip_line line = true ↔ skipSpec line) ∧
    is_skip_line (S "upi-credclub 12345678 payment") = false := by
  refine ⟨fun line => ?_, by decide⟩
  unfold is_skip_line skipSpec
  by_cases h0 : line.isEmpty || (pyStrip line).isEmpty
  · simp only [h0, if_true]
    constructor
    · intro _
      left
      rcases Bool.or_eq_true_iff.mp h0 with h | h
      · rw [isEmpty_iff_eq_nil.mp h]
        rfl
      · exact isEmpty_iff_eq_nil.mp h
    · intro _
      trivial
  · have hne : pyStrip line ≠ [] := by
      intro h
      apply h0
      simp [h, List.isEmpty_iff]
    rw [if_neg h0]
    dsimp only
    simp only [Bool.or_eq_true]
    rw [skip_keyword_iff]
    simp only [List.all_eq_true, Bool.or_eq_true, decide_eq_true_eq, Bool.not_eq_true', Bool.not_eq_true, or_assoc]
    tauto

/-- `keepGroup` only ever appends to its accumulator, and what it appends
is a subsequence of the group it scans. -/
theorem keepGroup_decomp (g : List Tx) : ∀ acc u : List Tx,
    ∃ e, keepGroup u g acc = acc ++ e ∧ e.Sublist g := by
  induction g with
  | nil => intro acc u; exact ⟨[], by simp [keepGroup]⟩
  | cons t ts ih =>
    intro acc u
    unfold keepGroup
    by_cases h : (u ++ acc).any (fun e => is_duplicate_transaction t e) = true
    · rw [if_pos h]
      obtain ⟨e, he, hs⟩ := ih acc u
      exact ⟨e, he, hs.cons t⟩
    · rw [if_neg h]
      obtain ⟨e, he, hs⟩ := ih (acc ++ [t]) u
      exact ⟨t :: e, by rw [he, List.append_assoc]; rfl, hs.cons₂ t⟩

/-- `dedupLoop` extends its accumulator with a subsequence of the
concatenation of the remaining groups. -/
theorem dedupLoop_decomp (gs : List (List Tx)) : ∀ u : List Tx,
    ∃ e, dedupLoop gs u = u ++ e ∧ e.Sublist gs.flatten := by
  induction gs with
  | nil => intro u; exact ⟨[], by simp [dedupLoop]⟩
  | cons g gs ih =>
    intro u
    unfold dedupLoop
    dsimp only
    by_cases h : g.length = 1
    · rw [if_pos h]
      obtain ⟨e, he, hs⟩ := ih (u ++ g)
      refine ⟨g ++ e, by rw [he, List.append_assoc], ?_⟩
      simpa [List.flatten_cons] using (List.Sublist.refl g).append hs
    · rw [if_neg h]
      obtain ⟨e0, he0, hs0⟩ := keepGroup_decomp g [] u
      obtain ⟨e, he, hs⟩ := ih (u ++ keepGroup u g [])
      refine ⟨e0 ++ e, ?_, ?_⟩
      · rw [he, he0, List.nil_append, List.append_assoc]
      · simpa [List.flatten_cons] using hs0.append hs

/-- Inserting into the group list extends the flattened membership by
exactly the inserted transaction. -/
theorem groupIns_snd_mem (gs : List ((Q × Str) × List Tx)) (k : Q × Str)
    (t x : Tx) :
    x ∈ ((groupIns gs k t).map Prod.snd).flatten ↔
      x ∈ (gs.map Prod.snd).flatten ∨ x = t := by
  induction gs with
  | nil => simp [groupIns]
  | cons p r ih =>
    obtain ⟨k', l⟩ := p
    unfold groupIns
    by_cases h : keyEq k' k = true
    · rw [if_pos h]
      simp only [List.map_cons, List.flatten_cons, List.mem_append,
        List.mem_singleton]
      tauto
    · rw [if_neg h]
      simp only [List.map_cons, List.flatten_cons, List.mem_append, ih]
      tauto

/-- Every transaction in the flattened groups of `buildGroups` comes from
the input list. -/
theorem buildGroups_snd_mem (txs : List Tx) :
    ∀ gs : List ((Q × Str) × List Tx), ∀ x : Tx,
    x ∈ ((txs.foldl (fun gs t => groupIns gs (dedupKey t) t) gs).map Prod.snd).flatten →
      x ∈ (gs.map Prod.snd).flatten ∨ x ∈ txs := by
  induction txs with
  | nil => intro gs x h; exact Or.inl h
  | cons t ts ih =>
    intro gs x h
    rw [List.foldl_cons] at h
    rcases ih (groupIns gs (dedupKey t) t) x h with hm | hm
    · rcases (groupIns_snd_mem gs (dedupKey t) t x).mp hm with hm | rfl
      · exact Or.inl hm
      · exact Or.inr (List.mem_cons_self _ _)
    · exact Or.inr (List.mem_cons_of_mem t hm)

/-- When the inserted key matches no existing key, `groupIns` appends a
new singleton group at the end. -/
theorem groupIns_all_new (gs : List ((Q × Str) × List Tx)) (k : Q × Str)
    (t : Tx) (h : ∀ p ∈ gs, keyEq p.1 k = false) :
    groupIns gs k t = gs ++ [(k, [t])] := by
  induction gs with
  | nil => rfl
  | cons p r ih =>
    obtain ⟨k', l⟩ := p
    unfold groupIns
    rw [if_neg, ih (fun q hq => h q (List.mem_cons_of_mem _ hq))]
    · rfl
    · rw [h ⟨k', l⟩ (List.mem_cons_self _ _)]
      simp

/-- With pairwise-distinct dedup keys, `buildGroups` produces the list of
singleton groups in input order. -/
theorem buildGroups_distinct (txs : List Tx)
    (hp : txs.Pairwise (fun a b => keyEq (dedupKey a) (dedupKey b) = false)) :
    buildGroups txs = txs.map (fun t => (dedupKey t, [t])) := by
  unfold buildGroups
  suffices h : ∀ (l : List Tx) (gs : List ((Q × Str) × List Tx)),
      l.Pairwise (fun a b => keyEq (dedupKey a) (dedupKey b) = false) →
      (∀ p ∈ gs, ∀ t ∈ l, keyEq p.1 (dedupKey t) = false) →
      l.foldl (fun gs t => groupIns gs (dedupKey t) t) gs =
        gs ++ l.map (fun t => (dedupKey t, [t])) by
    simpa using h txs [] hp (by simp)
  intro l
  induction l with
  | nil => intro gs _ _; simp
  | cons t ts ih =>
    intro gs hp hgs
    rw [List.foldl_cons,
        groupIns_all_new gs (dedupKey t) t
          (fun p hpm => hgs p hpm t (List.mem_cons_self _ _)),
        ih (gs ++ [(dedupKey t, [t])]) (List.Pairwise.of_cons hp) ?_, List.map_cons,
        List.append_assoc]
    · rfl
    · intro p hpm t' ht'
      rcases List.mem_append.mp hpm with hm | hm
      · exact hgs p hm t' (List.mem_cons_of_mem _ ht')
      · rw [List.mem_singleton.mp hm]
        exact (List.pairwise_cons.mp hp).1 t' ht'

/-- On a list of singleton groups `dedupLoop` performs no duplicate check
and returns the transactions in order. -/
theorem dedupLoop_singletons (l : List Tx) : ∀ u : List Tx,
    dedupLoop (l.map (fun t => [t])) u = u ++ l := by
  induction l with
  | nil => intro u; simp [dedupLoop]
  | cons t ts ih =>
    intro u
    rw [List.map_cons]
    unfold dedupLoop
    dsimp only
    have h1 : ([t] : List Tx).length = 1 := rfl
    rw [if_pos h1, ih (u ++ [t]), List.append_assoc]
    rfl

/-- C2 (counterexample): with transactions alpha, gamma, beta arriving in
that document order, where alpha and beta share the dedup key `(5.0,
"01/01/2024")` but are not duplicates (distinct references) and gamma has
key `(7.0, "01/01/2024")`, `deduplicate_transactions` returns alpha,
beta, gamma: the dict group-by reorders the output, so it is not a
subsequence of the input and the claimed stability fails even though
nothing was removed. -/
theorem dedup_not_stable :
    deduplicate_transactions [c2alpha, c2gamma, c2beta] =
      [c2alpha, c2beta, c2gamma] ∧
    ¬ (deduplicate_transactions [c2alpha, c2gamma, c2beta]).Sublist
        [c2alpha, c2gamma, c2beta] := by
  decide

/-- C2 (amended): `deduplicate_transactions` only removes and regroups,
never invents: every output transaction is an input transaction; when all
dedup keys `(amount, date)` are pairwise distinct the output is exactly
the input, in order; and in general the output is a subsequence of the
input regrouped by first occurrence of its dedup key (`joinGroups`), not
of the input itself. -/
theorem dedup_output_characterization :
    (∀ txs : List Tx, ∀ t ∈ deduplicate_transactions txs, t ∈ txs) ∧
    (∀ txs : List Tx,
      txs.Pairwise (fun a b => keyEq (dedupKey a) (dedupKey b) = false) →
      deduplicate_transactions txs = txs) ∧
    (∀ txs : List Tx, (deduplicate_transactions txs).Sublist (joinGroups txs)) := by
  refine ⟨?_, ?_, ?_⟩
  · intro txs t ht
    unfold deduplicate_transactions at ht
    by_cases h : txs.isEmpty = true
    · rw [if_pos h] at ht
      cases ht
    · rw [if_neg h] at ht
      obtain ⟨e, he, hs⟩ := dedupLoop_decomp ((buildGroups txs).map Prod.snd) []
      rw [he, List.nil_append] at ht
      have hme := hs.subset ht
      rcases buildGroups_snd_mem txs [] t hme with hm | hm
      · cases hm
      · exact hm
  · intro txs hp
    unfold deduplicate_transactions
    by_cases h : txs.isEmpty = true
    · rw [if_pos h, List.isEmpty_iff.mp h]
    · rw [if_neg h, buildGroups_distinct txs hp]
      have hmm : ((txs.map (fun t => (dedupKey t, [t]))).map Prod.snd) =
          txs.map (fun t => [t]) := by
        rw [List.map_map]
        rfl
      rw [hmm, dedupLoop_singletons txs [], List.nil_append]
  · intro txs
    unfold deduplicate_transactions joinGroups
    by_cases h : txs.isEmpty = true
    · rw [if_pos h]
      exact List.nil_sublist _
    · rw [if_neg h]
      obtain ⟨e, he, hs⟩ := dedupLoop_decomp ((buildGroups txs).map Prod.snd) []
      rw [he, List.nil_append]
      exact hs

theorem dedup_output_characterization_witness :
    deduplicate_transactions [c2alpha, c2gamma] = [c2alpha, c2gamma] :=
  dedup_output_characterization.2.1 [c2alpha, c2gamma] (by decide)

/-- C3 (counterexample): when the transaction amount equals the balance
("  64,065.00      64,065.00" after the value date), the span between the
two amount tokens is 6, so the claim classifies the line credit; but
`_is_credit_transaction` locates both tokens with `str.find`, which
returns the FIRST occurrence of the identical text for both, so the
computed gap collapses to 0 and the line (whose description `NOKEY` has
no credit keyword) is classified debit. -/
theorem is_credit_find_gap_bug :
    2 ≤ (amtFindIter (S "  64,065.00      64,065.00")).length ∧
    5 ≤ specGapSpan (S "  64,065.00      64,065.00") ∧
    is_credit_transaction
      (S "01/01/26  NOKEY  01/01/26  64,065.00      64,065.00") 17
      (S "  64,065.00      64,065.00") = false := by
  decide

/-- C3 (amended): when the first occurrence of each end amount's text is
the token itself (`str.find` agrees with the match position, which holds
whenever the two amount texts differ), `_is_credit_transaction` follows
the claimed gap analysis: a span of at least 5 between the end of the
first amount and the start of the balance amount yields credit, and a
span of at most 2 with no credit keyword in the upper-cased collapsed
description yields debit. -/
theorem is_credit_gap_classification
    (line : Str) (vdStart : Nat) (after : Str) (a0 an : AmtMatch)
    (hh : (amtFindIter after).head? = some a0)
    (hl : (amtFindIter after).getLast? = some an)
    (hn : 2 ≤ (amtFindIter after).length)
    (hf0 : pyFind after a0.amt = some a0.start)
    (hfn : pyFind after an.amt = some an.start)
    (hb0 : a0.start + a0.amt.length ≤ after.length)
    (hbn : an.start ≤ after.length) :
    (5 ≤ specGapSpan after → is_credit_transaction line vdStart after = true) ∧
    (specGapSpan after ≤ 2 →
      (creditKeywords.any (fun kw =>
        pyContains (pyUpper (collapseWs2 (pyStrip (line.take vdStart)))) kw)) = false →
      is_credit_transaction line vdStart after = false) := by
  unfold is_credit_transaction specGapSpan
  dsimp only
  rw [if_neg (by omega : ¬ (amtFindIter after).length < 2), hh, hl]
  dsimp only
  rw [hf0, hfn]
  simp only [Option.getD_some]
  constructor
  · intro hgap
    rw [if_pos (by omega :
      min an.start after.length - min (a0.start + a0.amt.length) after.length ≥ 5)]
  · intro hgap hkw
    rw [if_neg (by omega :
        ¬ min an.start after.length - min (a0.start + a0.amt.length) after.length ≥ 5),
        if_pos (by omega :
        min an.start after.length - min (a0.start + a0.amt.length) after.length ≤ 2)]
    exact hkw

theorem is_credit_gap_classification_witness :
    2 ≤ (amtFindIter (S "  64,065.00            90,855.96")).length ∧
    5 ≤ specGapSpan (S "  64,065.00            90,855.96") ∧
    is_credit_transaction
      (S "01/01/26  CC REF001  01/01/26  64,065.00            90,855.96") 21
      (S "  64,065.00            90,855.96") = true := by
  refine ⟨by decide, by decide, ?_⟩
  exact (is_credit_gap_classification
    (S "01/01/26  CC REF001  01/01/26  64,065.00            90,855.96") 21
    (S "  64,065.00            90,855.96")
    ⟨2, S "64,065.00", none, 23⟩ ⟨23, S "90,855.96", none, 32⟩
    (by decide) (by decide) (by decide) (by decide) (by decide)
    (by decide) (by decide)).1 (by decide)

/-- An ASCII digit is one of the ten digit characters. -/
theorem pyIsDigit_mem (c : Char) (h : pyIsDigit c = true) : c ∈ S "0123456789" := by
  unfold pyIsDigit at h
  simp only [Bool.and_eq_true, decide_eq_true_eq, Char.le_def] at h
  obtain ⟨h1, h2⟩ := h
  have hn1 : 48 ≤ c.toNat := h1
  have hn2 : c.toNat ≤ 57 := h2
  interval_cases hc : c.toNat <;>
    · have := Char.ofNat_toNat c
      rw [hc] at this
      rw [← this]
      decide

/-- `parse_amount` on a `digits-and-commas.digits` token is never
negative. -/
theorem parse_amount_decimal_nonneg (ip f : Str)
    (hip : ∀ c ∈ ip, (pyIsDigit c || c = ',') = true)
    (hf : f ≠ []) (hfd : ∀ c ∈ f, pyIsDigit c = true) :
    qle 0 (parse_amount (ip ++ '.' :: f)) = true := by
  rw [parse_amount_decimal ip f ?_ hf (fun c hc => pyIsDigit_mem c (hfd c hc))]
  · unfold qle
    rw [decide_eq_true_eq]
    have h0n : (0 : Q).n = 0 := rfl
    have h0d : (0 : Q).d = 1 := rfl
    rw [h0n, h0d]
    have hnn : (0 : Int) ≤ (digitsVal (ip.filter (fun c => c ≠ ',')) : Int) *
        10 ^ f.length + digitsVal f := by positivity
    simpa using hnn
  · intro c hc
    rcases Bool.or_eq_true_iff.mp (hip c hc) with hd | hcm
    · exact List.mem_append_left _ (pyIsDigit_mem c hd)
    · rw [decide_eq_true_eq.mp hcm]
      decide

/-- Every `INR`-amount token parses to a non-negative value. -/
theorem inrAt_nonneg (s : Str) (i : Nat) (r : Str × Nat)
    (h : inrAt s i = some r) : qle 0 (parse_amount r.1) = true := by
  unfold inrAt at h
  split at h
  · dsimp only at h
    split at h
    · exact Option.noConfusion h
    · split at h
      · next a b rest heq =>
        split at h
        · next hab =>
          obtain rfl := (Option.some.inj h).symm
          refine parse_amount_decimal_nonneg _ [a, b]
            (fun c hc => by have hp := List.mem_takeWhile_imp hc; exact hp)
            (by simp) ?_
          intro c hc
          rcases Bool.and_eq_true_iff.mp hab with ⟨ha, hb⟩
          rcases List.mem_cons.mp hc with rfl | hc2
          · exact ha
          · rw [List.mem_singleton.mp hc2]
            exact hb
        · exact Option.noConfusion h
      · exact Option.noConfusion h
  · exact Option.noConfusion h

/-- All amounts found by the `INR` scanner worker are non-negative. -/
theorem inrFindIterGo_nonneg (s : Str) : ∀ fuel i, ∀ x ∈ inrFindIterGo s fuel i,
    qle 0 (parse_amount x) = true := by
  intro fuel
  induction fuel with
  | zero => intro i x hx; cases hx
  | succ n ih =>
    intro i x hx
    unfold inrFindIterGo at hx
    split at hx
    · revert hx
      cases hm : inrAt s i with
      | none => intro hx; exact ih (i + 1) x hx
      | some r =>
        intro hx
        rcases List.mem_cons.mp hx with rfl | hx2
        · exact inrAt_nonneg s i r hm
        · exact ih r.2 x hx2
    · cases hx

/-- The amount text accepted by the core of the day-amount pattern parses
to a non-negative value. -/
theorem dayAmountCore_nonneg (r3 amt : Str) (h : dayAmountCore r3 = some amt) :
    qle 0 (parse_amount amt) = true := by
  unfold dayAmountCore at h
  dsimp only at h
  split at h
  · exact Option.noConfusion h
  · split at h
    · next a b r4 heq =>
      split at h
      · next hab =>
        rcases Bool.and_eq_true_iff.mp hab with ⟨ha, hb⟩
        have hshape : qle 0 (parse_amount
            (r3.takeWhile (fun c => pyIsDigit c || c = ',') ++ ['.', a, b])) = true := by
          refine parse_amount_decimal_nonneg _ [a, b]
            (fun c hc => by have hp := List.mem_takeWhile_imp hc; exact hp)
            (by simp) ?_
          intro c hc
          rcases List.mem_cons.mp hc with rfl | hc2
          · exact ha
          · rw [List.mem_singleton.mp hc2]
            exact hb
        split at h
        · obtain rfl := (Option.some.inj h).symm
          exact hshape
        · split at h
          · obtain rfl := (Option.some.inj h).symm
            exact hshape
          · exact Option.noConfusion h
        · exact Option.noConfusion h
      · exact Option.noConfusion h
    · exact Option.noConfusion h

/-- The amount returned by `day_match` is non-negative. -/
theorem dayAmountMatch_nonneg (s : Str) (d amt : Str)
    (h : dayAmountMatch s = some (d, amt)) :
    qle 0 (parse_amount amt) = true := by
  have hrest : ∀ r amt2, dayAmountRest r = some amt2 →
      qle 0 (parse_amount amt2) = true := by
    intro r amt2 hr
    unfold dayAmountRest at hr
    exact dayAmountCore_nonneg _ _ hr
  unfold dayAmountMatch at h
  dsimp only at h
  split at h
  · split at h
    · next amt2 heq =>
      obtain hinj := Option.some.inj h
      obtain rfl : amt2 = amt := congrArg Prod.snd hinj
      exact hrest _ _ heq
    · revert h
      cases hm : dayAmountRest (s.drop 1) with
      | none => intro h; exact Option.noConfusion h
      | some amt2 =>
        intro h
        obtain hinj := Option.some.inj h
        obtain rfl : amt2 = amt := congrArg Prod.snd hinj
        exact hrest _ _ hm
  · split at h
    · revert h
      cases hm : dayAmountRest (s.drop 1) with
      | none => intro h; exact Option.noConfusion h
      | some amt2 =>
        intro h
        obtain hinj := Option.some.inj h
        obtain rfl : amt2 = amt := congrArg Prod.snd hinj
        exact hrest _ _ hm
    · exact Option.noConfusion h

/-- All amounts found by the `INR` scanner are non-negative. -/
theorem inrFindIter_nonneg (s : Str) : ∀ x ∈ inrFindIter s,
    qle 0 (parse_amount x) = true :=
  fun x hx => inrFindIterGo_nonneg s (s.length + 1) 0 x hx


/-- A draft emitted by the CSV row tail never has both sides zero. -/
theorem csvEmit_guard (dateN narr0 : Str) (dc : Q × Q) (balance : Q) (t : Tx)
    (h : csvEmit dateN narr0 dc balance = some t) :
    (qeq t.debit 0 && qeq t.credit 0) = false := by
  unfold csvEmit at h
  dsimp only at h
  split at h
  · exact Option.noConfusion h
  · next hguard =>
    obtain rfl := (Option.some.inj h).symm
    dsimp only
    exact Bool.eq_false_iff.mpr hguard

/-- C9 (counterexample): both `_parse_indian_bank_line` (on a line whose
transaction amount is `INR 0.00` with a dash marker) and the generic
multi-line strategy (on a `12 ₹0.00` amount line with a `Jun 12 Dr`
date line) emit a draft whose debit and credit are both zero and whose
amount is absent resp. zero, violating the claimed invariant. -/
theorem zero_draft_emitted :
    ((parse_indian_bank_line (fun _ => none)
        (S "16 Jun 2024 FOO INR 0.00 - INR 40,173.56")).map
      (fun t => (qeq t.debit 0, qeq t.credit 0, t.amount))) =
        some (true, true, none) ∧
    ((ml_step (fun _ => none) (S "DESC") (S "12 ₹0.00") (S "Jun 12 Dr")).map
      (fun t => (qeq t.debit 0, qeq t.credit 0,
        t.amount.map (fun q => qeq q 0)))) = some (true, true, some true) := by
  decide

/-- C9 (amended): the CSV stage does enforce the invariant (its guard
refuses any row whose routed debit and credit are both zero), and no
strategy ever emits a negative amount: every draft of
`_parse_indian_bank_line` has non-negative debit and credit and no
`amount` key, and every draft of the generic multi-line strategy has
debit 0, non-negative credit and a non-negative `amount`.  But the
all-zero case is reachable outside the CSV stage whenever a matched
amount token is `0.00`. -/
theorem zero_draft_characterization :
    (∀ oracle mp line t, csvRow oracle mp line = some t →
      (qeq t.debit 0 && qeq t.credit 0) = false) ∧
    (∀ oracle line t, parse_indian_bank_line oracle line = some t →
      qle 0 t.debit = true ∧ qle 0 t.credit = true ∧ t.amount = none) ∧
    (∀ oracle l1 l2 l3 t, ml_step oracle l1 l2 l3 = some t →
      t.debit = 0 ∧ qle 0 t.credit = true ∧
        ∃ q, t.amount = some q ∧ qle 0 q = true) := by
  have h00 : qle (0 : Q) 0 = true := by decide
  refine ⟨?_, ?_, ?_⟩
  · intro oracle mp line t h
    unfold csvRow at h
    dsimp only at h
    split at h
    · exact Option.noConfusion h
    · split at h
      · exact Option.noConfusion h
      · exact csvEmit_guard _ _ _ _ _ h
  · intro oracle line t h
    unfold parse_indian_bank_line at h
    split at h
    · exact Option.noConfusion h
    · split at h
      · exact Option.noConfusion h
      · dsimp only at h
        split at h
        · exact Option.noConfusion h
        · next first hfirst =>
          have hfa : qle 0 (parse_amount first) = true :=
            inrFindIter_nonneg _ first (List.mem_of_mem_head? hfirst)
          obtain rfl := (Option.some.inj h).symm
          dsimp only
          refine ⟨?_, ?_, rfl⟩
          · split
            · exact h00
            · split
              · exact hfa
              · split
                · exact h00
                · exact hfa
          · split
            · exact hfa
            · split
              · exact h00
              · split
                · exact hfa
                · exact h00
  · intro oracle l1 l2 l3 t h
    unfold ml_step at h
    split at h
    · exact Option.noConfusion h
    · next da hda =>
      have hfa : qle 0 (parse_amount da.2) = true :=
        dayAmountMatch_nonneg l2 da.1 da.2 (by rw [← hda])
      dsimp only at h
      split at h
      · exact Option.noConfusion h
      · split at h
        · exact Option.noConfusion h
        · obtain rfl := (Option.some.inj h).symm
          dsimp only
          refine ⟨rfl, ?_, ?_⟩
          · split
            · exact hfa
            · exact h00
          · exact ⟨_, rfl, hfa⟩

theorem zero_draft_characterization_witness :
    qle 0 ((⟨S "16/06/2024", S "FOO", S "FOO", S "16/06/2024", 0, ⟨4017356, 100⟩,
        0, [], [], S "credit", S "FOO", none⟩ : Tx)).credit = true := by
  have h := (zero_draft_characterization.2.1 (fun _ => none)
    (S "16 Jun 2024 FOO NEFT INR 40,173.56")
    ⟨S "16/06/2024", S "FOO NEFT", S "FOO NEFT", S "16/06/2024", 0,
      ⟨4017356, 100⟩, 0, [], [], S "credit", S "FOO NEFT", none⟩ (by decide)).2.1
  exact h

/-- A positive rational is positive exactly when it is not at most
zero. -/
theorem qlt_zero_of_qle_false (a : Q) (h : qle a 0 = false) : qlt 0 a = true := by
  unfold qle at h
  unfold qlt
  rw [decide_eq_false_iff_not] at h
  rw [decide_eq_true_eq]
  have h0n : (0 : Q).n = 0 := rfl
  have h0d : (0 : Q).d = 1 := rfl
  rw [h0n, h0d] at h ⊢
  simp only [Nat.cast_one, mul_one, zero_mul] at h ⊢
  omega

/-- Drafts of the CSV row tail carry the matching type tag. -/
theorem csvEmit_typeTag (dateN narr0 : Str) (dc : Q × Q) (balance : Q) (t : Tx)
    (h : csvEmit dateN narr0 dc balance = some t) : typeTag t := by
  unfold csvEmit at h
  dsimp only at h
  split at h
  · exact Option.noConfusion h
  · obtain rfl := (Option.some.inj h).symm
    rfl

/-- Drafts of a CSV data row carry the matching type tag. -/
theorem csvRow_typeTag (oracle : Str → Option Str) (mp : ColMap) (line : Str)
    (t : Tx) (h : csvRow oracle mp line = some t) : typeTag t := by
  unfold csvRow at h
  dsimp only at h
  split at h
  · exact Option.noConfusion h
  · split at h
    · exact Option.noConfusion h
    · exact csvEmit_typeTag _ _ _ _ _ h

/-- Drafts of the CSV stage carry the matching type tag. -/
theorem parse_csv_typeTag (oracle : Str → Option Str) (text : Str) (t : Tx)
    (h : t ∈ parse_csv oracle text) : typeTag t := by
  simp only [parse_csv] at h
  split at h
  · cases h
  · obtain ⟨il, _, hil⟩ := List.mem_filterMap.mp h
    split at hil
    · exact Option.noConfusion hil
    · exact csvRow_typeTag _ _ _ _ hil

/-- Drafts of the column-based strategy's row extractor carry the
matching type tag. -/
theorem extract_from_columns_typeTag (oracle : Str → Option Str)
    (parts : List Str) (mp : ColMap) (t : Tx)
    (h : extract_from_columns oracle parts mp = some t) : typeTag t := by
  simp only [extract_from_columns] at h
  split at h
  · exact Option.noConfusion h
  · split at h
    · exact Option.noConfusion h
    · split at h <;> split at h <;> split at h <;>
        first
          | exact Option.noConfusion h
          | (obtain rfl := (Option.some.inj h).symm; unfold typeTag; dsimp only)

/-- Drafts of the column-based strategy carry the matching type tag. -/
theorem parse_column_based_typeTag (oracle : Str → Option Str)
    (lines : List Str) (t : Tx) (h : t ∈ parse_column_based oracle lines) :
    typeTag t := by
  simp only [parse_column_based] at h
  split at h
  · cases h
  · obtain ⟨il, _, hil⟩ := List.mem_filterMap.mp h
    split at hil
    · exact Option.noConfusion hil
    · split at hil
      · exact Option.noConfusion hil
      · split at hil
        · next tx heq =>
          split at hil
          · obtain rfl := (Option.some.inj hil).symm
            exact extract_from_columns_typeTag _ _ _ _ heq
          · exact Option.noConfusion hil
        · exact Option.noConfusion hil

/-- Drafts of `_parse_indian_bank_line` carry the matching type tag. -/
theorem parse_indian_bank_line_typeTag (oracle : Str → Option Str) (line : Str)
    (t : Tx) (h : parse_indian_bank_line oracle line = some t) : typeTag t := by
  simp only [parse_indian_bank_line] at h
  split at h
  · exact Option.noConfusion h
  · split at h
    · exact Option.noConfusion h
    · split at h
      · exact Option.noConfusion h
      · obtain rfl := (Option.some.inj h).symm
        unfold typeTag
        dsimp only

/-- Drafts of `_parse_indian_bank_format` carry the matching type tag. -/
theorem parse_indian_format_typeTag (oracle : Str → Option Str)
    (lines : List Str) (t : Tx) (h : t ∈ parse_indian_format oracle lines) :
    typeTag t := by
  simp only [parse_indian_format] at h
  split at h
  · cases h
  · obtain ⟨il, _, hil⟩ := List.mem_filterMap.mp h
    split at hil
    · exact Option.noConfusion hil
    · split at hil
      · exact Option.noConfusion hil
      · split at hil
        · exact Option.noConfusion hil
        · exact parse_indian_bank_line_typeTag _ _ _ hil

/-- The tail of `parse_generic_line` only emits matches with a positive
amount. -/
theorem genericEmit_pos (line date : Str) (em : AmtMatch) (amount : Q)
    (m : TMatch) (h : genericEmit line date em amount = .ok (some m)) :
    qlt 0 m.amount = true := by
  unfold genericEmit at h
  dsimp only at h
  split at h
  · exact Option.noConfusion (Except.ok.inj h)
  · next hle =>
    split at h
    · exact Option.noConfusion (Except.ok.inj h)
    · obtain rfl := (Option.some.inj (Except.ok.inj h)).symm
      exact qlt_zero_of_qle_false _ (Bool.eq_false_iff.mpr hle)

/-- `parse_generic_line` only returns matches with a positive amount
(the `amount <= 0` guard). -/
theorem parse_generic_line_pos (oracle : Str → Option Str) (line : Str)
    (m : TMatch) (h : parse_generic_line oracle line = .ok (some m)) :
    qlt 0 m.amount = true := by
  simp only [parse_generic_line] at h
  repeat' split at h
  all_goals first
    | exact Except.noConfusion h
    | exact Option.noConfusion (Except.ok.inj h)
    | exact genericEmit_pos _ _ _ _ _ h

/-- Drafts of `_parse_transaction_group` carry the matching type tag. -/
theorem parse_transaction_group_typeTag (oracle : Str → Option Str)
    (lines : List Str) (start : Nat) (t : Tx)
    (h : parse_transaction_group oracle lines start = .ok (some t)) :
    typeTag t := by
  simp only [parse_transaction_group] at h
  split at h
  · exact Option.noConfusion (Except.ok.inj h)
  · split at h
    · exact Option.noConfusion (Except.ok.inj h)
    · split at h
      · exact Except.noConfusion h
      · exact Option.noConfusion (Except.ok.inj h)
      · next m heq =>
        obtain rfl := (Option.some.inj (Except.ok.inj h)).symm
        have hpos := parse_generic_line_pos _ _ _ heq
        unfold typeTag
        dsimp only
        by_cases hc : m.isCredit = true
        · rw [if_pos hc, if_pos hc, if_pos hpos]
        · rw [if_neg hc, if_neg hc, if_neg (by decide : ¬ qlt (0 : Q) 0 = true)]

/-- Drafts of the multi-line loop carry the matching type tag. -/
theorem mlLoop_typeTag (oracle : Str → Option Str) (lines : List Str) :
    ∀ fuel i l, mlLoop oracle lines fuel i = .ok l → ∀ t ∈ l, typeTag t := by
  intro fuel
  induction fuel with
  | zero =>
    intro i l h t ht
    obtain rfl := (Except.ok.inj h).symm
    cases ht
  | succ n ih =>
    intro i l h t ht
    unfold mlLoop at h
    split at h
    · split at h
      · exact Except.noConfusion h
      · next tx htx =>
        split at h
        · exact Except.noConfusion h
        · next c hc =>
          revert h
          cases hrec : mlLoop oracle lines n (i + c) with
          | error e => intro h; exact Except.noConfusion h
          | ok rest =>
            intro h
            obtain rfl := (Except.ok.inj h).symm
            rcases List.mem_cons.mp ht with rfl | htr
            · exact parse_transaction_group_typeTag _ _ _ _ htx
            · exact ih _ _ hrec t htr
      · exact ih _ _ h t ht
    · obtain rfl := (Except.ok.inj h).symm
      cases ht

/-- Drafts of the multi-line strategy carry the matching type tag. -/
theorem parse_multiline_typeTag (oracle : Str → Option Str)
    (lines : List Str) (l : List Tx) (h : parse_multiline oracle lines = .ok l) :
    ∀ t ∈ l, typeTag t := by
  intro t ht
  simp only [parse_multiline] at h
  split at h
  · obtain rfl := (Except.ok.inj h).symm
    exact parse_indian_format_typeTag _ _ _ ht
  · exact mlLoop_typeTag _ _ _ _ _ h t ht

/-- Converted generic matches with a positive amount carry the matching
type tag. -/
theorem convert_generic_match_typeTag (m : TMatch)
    (hpos : qlt 0 m.amount = true) : typeTag (convert_generic_match m) := by
  unfold convert_generic_match typeTag
  dsimp only
  by_cases hc : m.isCredit = true
  · rw [if_pos hc, if_pos hc, if_pos hpos]
  · rw [if_neg hc, if_neg hc, if_neg (by decide : ¬ qlt (0 : Q) 0 = true)]

/-- Drafts of the single-line strategy carry the matching type tag. -/
theorem parse_single_line_typeTag (oracle : Str → Option Str) :
    ∀ lines l, parse_single_line oracle lines = .ok l → ∀ t ∈ l, typeTag t := by
  intro lines
  induction lines with
  | nil =>
    intro l h t ht
    obtain rfl := (Except.ok.inj h).symm
    cases ht
  | cons x ls ih =>
    intro l h t ht
    unfold parse_single_line at h
    split at h
    · exact ih _ h t ht
    · split at h
      · exact Except.noConfusion h
      · split at h
        · exact Except.noConfusion h
        · next rest hrest =>
          split at h
          · next mm heqm =>
            split at h
            · next hpos =>
              obtain rfl := (Except.ok.inj h).symm
              rcases List.mem_cons.mp ht with rfl | htr
              · exact convert_generic_match_typeTag mm hpos
              · exact ih _ hrest t htr
            · obtain rfl := (Except.ok.inj h).symm
              exact ih _ hrest t ht
          · obtain rfl := (Except.ok.inj h).symm
            exact ih _ hrest t ht

/-- Drafts of the explicit-pattern extractor carry the matching type
tag. -/
theorem extract_by_pattern_rest_typeTag (oracle : Str → Option Str)
    (line : Str) (t : Tx)
    (h : extract_by_pattern_rest oracle line = .ok (some t)) : typeTag t := by
  simp only [extract_by_pattern_rest] at h
  split at h
  · exact Option.noConfusion (Except.ok.inj h)
  · split at h
    · exact Option.noConfusion (Except.ok.inj h)
    · split at h
      · exact Option.noConfusion (Except.ok.inj h)
      · split at h
        · exact Option.noConfusion (Except.ok.inj h)
        · next hle =>
          have hpos := qlt_zero_of_qle_false _ (Bool.eq_false_iff.mpr hle)
          repeat' first
            | exact Option.noConfusion (Except.ok.inj h)
            | (obtain rfl := (Option.some.inj (Except.ok.inj h)).symm
               unfold typeTag
               dsimp only
               first
                 | rw [if_pos hpos]
                 | rw [if_neg (by decide : ¬ qlt (0 : Q) 0 = true)])
            | split at h

/-- Drafts of `_extract_transaction_by_pattern` carry the matching type
tag. -/
theorem extract_transaction_by_pattern_typeTag (oracle : Str → Option Str)
    (line : Str) (t : Tx)
    (h : extract_transaction_by_pattern oracle line = .ok (some t)) :
    typeTag t := by
  simp only [extract_transaction_by_pattern] at h
  split at h
  · exact Except.noConfusion h
  · split at h
    · next m heqm =>
      split at h
      · next hpos =>
        obtain rfl := (Option.some.inj (Except.ok.inj h)).symm
        exact convert_generic_match_typeTag m hpos
      · exact extract_by_pattern_rest_typeTag _ _ _ h
    · exact extract_by_pattern_rest_typeTag _ _ _ h

/-- Drafts of the generic fallback stage carry the matching type tag. -/
theorem parse_generic_fallback_go_typeTag (oracle : Str → Option Str) :
    ∀ ls l, parse_generic_fallback_go oracle ls = .ok l → ∀ t ∈ l, typeTag t := by
  intro ls
  induction ls with
  | nil =>
    intro l h t ht
    obtain rfl := (Except.ok.inj h).symm
    cases ht
  | cons x ls ih =>
    intro l h t ht
    simp only [parse_generic_fallback_go] at h
    split at h
    · exact ih _ h t ht
    · split at h
      · exact ih _ h t ht
      · split at h
        · exact Except.noConfusion h
        · next r heqr =>
          split at h
          · exact Except.noConfusion h
          · next rest hrest =>
            split at h
            · next tx heqtx =>
              obtain rfl := (Except.ok.inj h).symm
              rcases List.mem_cons.mp ht with rfl | htr
              · exact extract_transaction_by_pattern_typeTag _ _ _ heqr
              · exact ih _ hrest t htr
            · obtain rfl := (Except.ok.inj h).symm
              exact ih _ hrest t ht

/-- Drafts of `_parse_generic_fallback` carry the matching type tag. -/
theorem parse_generic_fallback_typeTag (oracle : Str → Option Str)
    (text : Str) (l : List Tx) (h : parse_generic_fallback oracle text = .ok l) :
    ∀ t ∈ l, typeTag t :=
  fun t ht => parse_generic_fallback_go_typeTag oracle _ _ h t ht

/-- Members of an `adaptiveFold` result come from the accumulator or the
strategy result. -/
theorem adaptiveFold_mem (t : Tx) :
    ∀ (result : List Tx) (st : List Tx × List (Str × Str × Q × Q)),
    t ∈ (adaptiveFold st result).1 → t ∈ st.1 ∨ t ∈ result := by
  intro result
  induction result with
  | nil => intro st h; exact Or.inl h
  | cons tx r ih =>
    intro st h
    unfold adaptiveFold at h ih
    rw [List.foldl_cons] at h
    rcases ih _ h with h2 | h2
    · revert h2
      dsimp only
      split
      · intro h2
        exact Or.inl h2
      · intro h2
        rcases List.mem_append.mp h2 with h3 | h3
        · exact Or.inl h3
        · exact Or.inr (List.mem_cons.mpr (Or.inl (List.mem_singleton.mp h3)))
    · exact Or.inr (List.mem_cons_of_mem _ h2)

/-- Members of one adaptive strategy step come from the accumulator or
from a successful strategy result. -/
theorem adaptStep_mem (st : List Tx × List (Str × Str × Q × Q))
    (strat : Except Unit (List Tx)) (t : Tx)
    (h : t ∈ (if st.1.length < 20 then
        match strat with
        | .ok result => adaptiveFold st result
        | .error _ => st
      else st).1) :
    t ∈ st.1 ∨ ∃ r, strat = .ok r ∧ t ∈ r := by
  split at h
  · cases strat with
    | ok result =>
      rcases adaptiveFold_mem t result st h with h2 | h2
      · exact Or.inl h2
      · exact Or.inr ⟨result, rfl, h2⟩
    | error e => exact Or.inl h
  · exact Or.inl h

/-- Every transaction of the adaptive stage carries the matching type
tag. -/
theorem parse_adaptive_typeTag (oracle : Str → Option Str) (text : Str)
    (t : Tx) (h : t ∈ parse_adaptive oracle text) : typeTag t := by
  simp only [parse_adaptive, List.foldl_cons, List.foldl_nil] at h
  rcases adaptStep_mem _ _ _ h with h2 | ⟨r, hr, htr⟩
  · rcases adaptStep_mem _ _ _ h2 with h3 | ⟨r, hr, htr⟩
    · rw [if_pos (by decide : ([] : List Tx).length < 20)] at h3
      rcases adaptiveFold_mem t _ _ h3 with h4 | h4
      · cases h4
      · exact parse_column_based_typeTag _ _ _ h4
    · exact parse_multiline_typeTag _ _ _ hr t htr
  · exact parse_single_line_typeTag _ _ _ hr t htr

/-- The deduplicator only returns transactions of its input (shared with
the analysis of the ordering claim). -/
theorem dedup_mem (txs : List Tx) (t : Tx)
    (h : t ∈ deduplicate_transactions txs) : t ∈ txs := by
  unfold deduplicate_transactions at h
  split at h
  · cases h
  · obtain ⟨e, he, hs⟩ := dedupLoop_decomp ((buildGroups txs).map Prod.snd) []
    rw [he, List.nil_append] at h
    rcases buildGroups_snd_mem txs [] t (hs.subset h) with hm | hm
    · cases hm
    · exact hm

/-- Members of the validation fold come from the accumulator or the
deduplicated list. -/
theorem vwFold_mem (t : Tx) :
    ∀ (l : List Tx) (acc : List Tx × List Str),
    t ∈ (l.foldl (fun acc tx =>
        if validate_transaction tx then (acc.1 ++ [tx], acc.2)
        else (acc.1, acc.2 ++ [S "Invalid transaction: " ++ tx.description]))
      acc).1 →
    t ∈ acc.1 ∨ t ∈ l := by
  intro l
  induction l with
  | nil => intro acc h; exact Or.inl h
  | cons tx r ih =>
    intro acc h
    rw [List.foldl_cons] at h
    rcases ih _ h with h2 | h2
    · revert h2
      split
      · intro h2
        rcases List.mem_append.mp h2 with h3 | h3
        · exact Or.inl h3
        · exact Or.inr (List.mem_cons.mpr (Or.inl (List.mem_singleton.mp h3)))
      · intro h2
        exact Or.inl h2
    · exact Or.inr (List.mem_cons_of_mem _ h2)

/-- C10: with no AI key configured (the AI stage returns nothing), every
transaction returned by `BankStatementParser.parse` is tagged `credit`
exactly when its credit field is positive, and `debit` otherwise: the
type tag always agrees with the debit/credit amounts. -/
theorem parse_type_matches_credit (oracle : Str → Option Str) (text : Str)
    (t : Tx) (ht : t ∈ (BankStatementParser.parse oracle text).transactions) :
    t.txType = (if qlt 0 t.credit then S "credit" else S "debit") := by
  suffices htag : typeTag t from htag
  simp only [BankStatementParser.parse] at ht
  rcases vwFold_mem t _ _ ht with h2 | h2
  · exact absurd h2 (List.not_mem_nil t)
  · have h3 := dedup_mem _ _ h2
    generalize hA : (if (List.contains text ',' && has_csv_structure text) = true
        then parse_csv oracle text else ([] : List Tx)) = A at h3
    generalize hB : (if A.length < 5 then A ++ parse_adaptive oracle text else A) = B at h3
    generalize hC : (if B.length < 3 then B ++ parse_with_ai text else B) = C at h3
    have hAt : ∀ x ∈ A, typeTag x := by
      intro x hx
      rw [← hA] at hx
      split at hx
      · exact parse_csv_typeTag _ _ _ hx
      · cases hx
    have hBt : ∀ x ∈ B, typeTag x := by
      intro x hx
      rw [← hB] at hx
      split at hx
      · rcases List.mem_append.mp hx with h | h
        · exact hAt x h
        · exact parse_adaptive_typeTag _ _ _ h
      · exact hAt x hx
    have hCt : ∀ x ∈ C, typeTag x := by
      intro x hx
      rw [← hC] at hx
      split at hx
      · rcases List.mem_append.mp hx with h | h
        · exact hBt x h
        · cases h
      · exact hBt x hx
    split at h3
    · split at h3
      · next r hr =>
        rcases List.mem_append.mp h3 with h | h
        · exact hCt t h
        · exact parse_generic_fallback_typeTag _ _ _ hr t h
      · exact hCt t h3
    · exact hCt t h3

theorem parse_type_matches_credit_witness :
    (⟨S "01/01/2024", S "coffee shop", S "coffee shop", S "01/01/2024",
       ⟨50000, 100⟩, 0, 0, [], [], S "debit", S "coffee shop", none⟩ : Tx).txType =
      (if qlt 0 (⟨S "01/01/2024", S "coffee shop", S "coffee shop", S "01/01/2024",
       ⟨50000, 100⟩, 0, 0, [], [], S "debit", S "coffee shop", none⟩ : Tx).credit
        then S "credit" else S "debit") :=
  parse_type_matches_credit (fun _ => none)
    (S "date,description,debit,credit\n01/01/2024,coffee shop,500.00,0")
    ⟨S "01/01/2024", S "coffee shop", S "coffee shop", S "01/01/2024",
     ⟨50000, 100⟩, 0, 0, [], [], S "debit", S "coffee shop", none⟩
    (by decide)

/-- Unpack `noDateLine` into its five components. -/
theorem noDateLine_parts (oracle : Str → Option Str) (l : Str)
    (h : noDateLine oracle l = true) :
    searchDDMMYYYY l = none ∧ searchDDMon l = none ∧
    searchYYYYMMDD l = none ∧ searchIndianDate l = none ∧
    ∀ d ∈ [',', '\t', '|', ';'], ∀ cell ∈ pySplit l d,
      parse_date oracle cell = none := by
  unfold noDateLine at h
  simp only [Bool.and_eq_true, List.all_eq_true, Option.isNone_iff_eq_none] at h
  obtain ⟨⟨⟨⟨h1, h2⟩, h3⟩, h4⟩, h5⟩ := h
  exact ⟨h1, h2, h3, h4, h5⟩

/-- The empty line carries no date shape. -/
theorem noDateLine_nil (oracle : Str → Option Str) :
    noDateLine oracle [] = true := rfl

/-- The detected delimiter is one of the four candidates. -/
theorem detect_delimiter_mem (lines : List Str) :
    detect_delimiter lines ∈ [',', '\t', '|', ';'] := by
  unfold detect_delimiter
  split
  · decide
  · simp only [List.map, List.foldl]
    repeat' split
    all_goals simp

/-- When no comma cell of the line parses as a date, a CSV row yields
nothing. -/
theorem csvRow_none (oracle : Str → Option Str) (mp : ColMap) (line : Str)
    (hcells : ∀ cell ∈ pySplit line ',', parse_date oracle cell = none) :
    csvRow oracle mp line = none := by
  have hget : parse_date oracle (match mp.get CField.date with
      | some j => if j < (pySplit line ',').length then
          pyStrip ((pySplit line ',').getD j []) else []
      | none => []) = none := by
    cases hj : mp.get CField.date with
    | none => rfl
    | some j =>
      dsimp only
      split
      · next hlt =>
        refine parse_date_strip oracle _ (hcells _ ?_)
        rw [List.getD_eq_getElem _ _ hlt]
        exact List.getElem_mem _
      · rfl
  unfold csvRow
  dsimp only
  split
  · rfl
  · rw [hget]

/-- When no line of the text has a date-parsing comma cell, the CSV stage
returns nothing. -/
theorem parse_csv_empty (oracle : Str → Option Str) (text : Str)
    (h : ∀ l ∈ pySplitlines text, ∀ cell ∈ pySplit l ',',
      parse_date oracle cell = none) :
    parse_csv oracle text = [] := by
  simp only [parse_csv]
  split
  · rfl
  · rw [List.filterMap_eq_nil_iff]
    intro il hil
    split
    · rfl
    · exact csvRow_none oracle _ _ (h il.2 (by
        have := List.enum_map_snd (pySplitlines text)
        exact this ▸ List.mem_map_of_mem Prod.snd hil))

/-- When no part parses as a date, the column extractor yields nothing. -/
theorem extract_from_columns_none (oracle : Str → Option Str)
    (parts : List Str) (mp : ColMap)
    (hparts : ∀ p ∈ parts, parse_date oracle p = none) :
    extract_from_columns oracle parts mp = none := by
  have hget : (if (match mp.get CField.date with
      | some j => if j < parts.length then pyStrip (parts.getD j []) else []
      | none => []).isEmpty = true then none
      else parse_date oracle (match mp.get CField.date with
      | some j => if j < parts.length then pyStrip (parts.getD j []) else []
      | none => [])) = (none : Option Str) := by
    split
    · rfl
    · cases hj : mp.get CField.date with
      | none => rfl
      | some j =>
        dsimp only
        split
        · next hlt =>
          refine parse_date_strip oracle _ (hparts _ ?_)
          rw [List.getD_eq_getElem _ _ hlt]
          exact List.getElem_mem _
        · rfl
  unfold extract_from_columns
  dsimp only
  split
  · rfl
  · rw [hget]

/-- When no cell of any line under any candidate delimiter parses as a
date, the column-based strategy returns nothing. -/
theorem parse_column_based_empty (oracle : Str → Option Str)
    (lines : List Str)
    (h : ∀ l ∈ lines, ∀ d ∈ [',', '\t', '|', ';'],
      ∀ cell ∈ pySplit (pyStrip l) d, parse_date oracle cell = none) :
    parse_column_based oracle lines = [] := by
  simp only [parse_column_based]
  split
  · rfl
  · rw [List.filterMap_eq_nil_iff]
    intro il hil
    split
    · rfl
    · split
      · rfl
      · have hmem : il.2 ∈ lines := by
          have := List.enum_map_snd lines
          exact this ▸ List.mem_map_of_mem Prod.snd hil
        have hext : extract_from_columns oracle
            (split_line (pyStrip il.2) (detect_delimiter lines))
            (map_columns lines (detect_delimiter lines)) = none := by
          refine extract_from_columns_none oracle _ _ ?_
          intro p hp
          unfold split_line at hp
          split at hp
          · cases hp
          · obtain ⟨cell, hcell, rfl⟩ := List.mem_map.mp hp
            exact parse_date_strip oracle _
              (h il.2 hmem (detect_delimiter lines) (detect_delimiter_mem lines)
                cell hcell)
        rw [hext]

/-- With no date shape on the line, `extract_date` finds nothing. -/
theorem extract_date_none (oracle : Str → Option Str) (line : Str)
    (h1 : searchDDMMYYYY line = none) (h2 : searchDDMon line = none)
    (h3 : searchYYYYMMDD line = none) :
    extract_date oracle line = none := by
  unfold extract_date
  rw [h1, h2, h3]

/-- With no date shape on the line, `parse_generic_line` reports no
match (and no error). -/
theorem parse_generic_line_none (oracle : Str → Option Str) (line : Str)
    (h1 : searchDDMMYYYY line = none) (h2 : searchDDMon line = none)
    (h3 : searchYYYYMMDD line = none) :
    parse_generic_line oracle line = .ok none := by
  unfold parse_generic_line
  dsimp only
  split
  · rfl
  · rw [extract_date_none oracle line h1 h2 h3]

/-- With no Indian date shape on the line, `_parse_indian_bank_line`
yields nothing. -/
theorem parse_indian_bank_line_none (oracle : Str → Option Str) (line : Str)
    (h : searchIndianDate line = none) :
    parse_indian_bank_line oracle line = none := by
  unfold parse_indian_bank_line
  rw [h]

/-- With no Indian date shape on any stripped line, the Indian format
strategy returns nothing. -/
theorem parse_indian_format_empty (oracle : Str → Option Str)
    (lines : List Str)
    (h : ∀ l ∈ lines, searchIndianDate (pyStrip l) = none) :
    parse_indian_format oracle lines = [] := by
  unfold parse_indian_format
  split
  · rfl
  · rw [List.filterMap_eq_nil_iff]
    intro il hil
    simp only []
    split
    · rfl
    · split
      · rfl
      · split
        · rfl
        · have hmem : il.2 ∈ lines := by
            have := List.enum_map_snd lines
            exact this ▸ List.mem_map_of_mem Prod.snd hil
          rw [parse_indian_bank_line_none oracle _ (h il.2 hmem)]

/-- With no date shape on the stripped start line,
`_parse_transaction_group` yields nothing and no error. -/
theorem parse_transaction_group_none (oracle : Str → Option Str)
    (lines : List Str) (start : Nat)
    (h1 : searchDDMMYYYY (pyStrip (lines.getD start [])) = none)
    (h2 : searchDDMon (pyStrip (lines.getD start [])) = none)
    (h3 : searchYYYYMMDD (pyStrip (lines.getD start [])) = none) :
    parse_transaction_group oracle lines start = .ok none := by
  unfold parse_transaction_group
  split
  · rfl
  · simp only []
    split
    · rfl
    · rw [parse_generic_line_none oracle _ h1 h2 h3]

/-- With no date shape on any stripped line, the multi-line loop returns
nothing and no error. -/
theorem mlLoop_empty (oracle : Str → Option Str) (lines : List Str)
    (h : ∀ i, searchDDMMYYYY (pyStrip (lines.getD i [])) = none ∧
      searchDDMon (pyStrip (lines.getD i [])) = none ∧
      searchYYYYMMDD (pyStrip (lines.getD i [])) = none) :
    ∀ fuel i, mlLoop oracle lines fuel i = .ok [] := by
  intro fuel
  induction fuel with
  | zero => intro i; rfl
  | succ n ih =>
    intro i
    unfold mlLoop
    split
    · rw [parse_transaction_group_none oracle lines i (h i).1 (h i).2.1 (h i).2.2]
      exact ih (i + 1)
    · rfl

/-- With no date shape on any stripped line, the multi-line strategy
returns nothing and no error. -/
theorem parse_multiline_empty (oracle : Str → Option Str) (lines : List Str)
    (hind : ∀ l ∈ lines, searchIndianDate (pyStrip l) = none)
    (h : ∀ i, searchDDMMYYYY (pyStrip (lines.getD i [])) = none ∧
      searchDDMon (pyStrip (lines.getD i [])) = none ∧
      searchYYYYMMDD (pyStrip (lines.getD i [])) = none) :
    parse_multiline oracle lines = .ok [] := by
  unfold parse_multiline
  rw [parse_indian_format_empty oracle lines hind]
  exact mlLoop_empty oracle lines h _ _

/-- With no date shape on any line, the single-line strategy returns
nothing and no error. -/
theorem parse_single_line_empty (oracle : Str → Option Str) :
    ∀ lines : List Str,
    (∀ l ∈ lines, searchDDMMYYYY l = none ∧ searchDDMon l = none ∧
      searchYYYYMMDD l = none) →
    parse_single_line oracle lines = .ok [] := by
  intro lines
  induction lines with
  | nil => intro _; rfl
  | cons x ls ih =>
    intro h
    unfold parse_single_line
    split
    · exact ih (fun l hl => h l (List.mem_cons_of_mem x hl))
    · have hx := h x (List.mem_cons_self x ls)
      rw [parse_generic_line_none oracle x hx.1 hx.2.1 hx.2.2,
        ih (fun l hl => h l (List.mem_cons_of_mem x hl))]

/-- With no `DD/MM/YYYY` shape on the line, the explicit-pattern
extractor yields nothing and no error. -/
theorem extract_by_pattern_rest_none (oracle : Str → Option Str) (line : Str)
    (h1 : searchDDMMYYYY line = none) :
    extract_by_pattern_rest oracle line = .ok none := by
  unfold extract_by_pattern_rest
  rw [h1]

/-- With no date shape on the line, `_extract_transaction_by_pattern`
yields nothing and no error. -/
theorem extract_transaction_by_pattern_none (oracle : Str → Option Str)
    (line : Str)
    (h1 : searchDDMMYYYY line = none) (h2 : searchDDMon line = none)
    (h3 : searchYYYYMMDD line = none) :
    extract_transaction_by_pattern oracle line = .ok none := by
  unfold extract_transaction_by_pattern
  rw [parse_generic_line_none oracle line h1 h2 h3]
  exact extract_by_pattern_rest_none oracle line h1

/-- With no date shape on any stripped line, the fallback stage returns
nothing and no error. -/
theorem parse_generic_fallback_go_empty (oracle : Str → Option Str) :
    ∀ ls : List Str,
    (∀ l ∈ ls, searchDDMMYYYY (pyStrip l) = none ∧
      searchDDMon (pyStrip l) = none ∧ searchYYYYMMDD (pyStrip l) = none) →
    parse_generic_fallback_go oracle ls = .ok [] := by
  intro ls
  induction ls with
  | nil => intro _; rfl
  | cons x ls ih =>
    intro h
    have hrest := ih (fun l hl => h l (List.mem_cons_of_mem x hl))
    have hx := h x (List.mem_cons_self x ls)
    simp only [parse_generic_fallback_go]
    split
    · exact hrest
    · split
      · exact hrest
      · rw [extract_transaction_by_pattern_none oracle _ hx.1 hx.2.1 hx.2.2,
          hrest]

/-- With no transaction-shaped line, the adaptive stage returns
nothing. -/
theorem parse_adaptive_empty (oracle : Str → Option Str) (text : Str)
    (hno : noTxShapedLines oracle text) : parse_adaptive oracle text = [] := by
  have hcover : ∀ l ∈ ((pySplitlines text).map pyStrip).filter
      (fun l => !l.isEmpty), noDateLine oracle l = true ∧ pyStrip l = l := by
    intro l hl
    have hm := List.mem_of_mem_filter hl
    obtain ⟨l0, hl0, rfl⟩ := List.mem_map.mp hm
    constructor
    · exact hno (pyStrip l0) (List.mem_append_right _ (List.mem_map_of_mem pyStrip hl0))
    · exact pyStrip_idem l0
  have hcb : parse_column_based oracle
      (((pySplitlines text).map pyStrip).filter (fun l => !l.isEmpty)) = [] := by
    refine parse_column_based_empty oracle _ ?_
    intro l hl d hd cell hcell
    obtain ⟨hnd, hst⟩ := hcover l hl
    rw [hst] at hcell
    exact (noDateLine_parts oracle l hnd).2.2.2.2 d hd cell hcell
  have hml : parse_multiline oracle
      (((pySplitlines text).map pyStrip).filter (fun l => !l.isEmpty)) = .ok [] := by
    refine parse_multiline_empty oracle _ ?_ ?_
    · intro l hl
      obtain ⟨hnd, hst⟩ := hcover l hl
      rw [hst]
      exact (noDateLine_parts oracle l hnd).2.2.2.1
    · intro i
      by_cases hi : i < (((pySplitlines text).map pyStrip).filter
          (fun l => !l.isEmpty)).length
      · rw [List.getD_eq_getElem _ _ hi]
        obtain ⟨hnd, hst⟩ := hcover _ (List.getElem_mem hi)
        rw [hst]
        have hp := noDateLine_parts oracle _ hnd
        exact ⟨hp.1, hp.2.1, hp.2.2.1⟩
      · rw [List.getD_eq_default _ _ (Nat.le_of_not_lt hi)]
        exact ⟨rfl, rfl, rfl⟩
  have hsl : parse_single_line oracle
      (((pySplitlines text).map pyStrip).filter (fun l => !l.isEmpty)) = .ok [] := by
    refine parse_single_line_empty oracle _ ?_
    intro l hl
    obtain ⟨hnd, _⟩ := hcover l hl
    have hp := noDateLine_parts oracle l hnd
    exact ⟨hp.1, hp.2.1, hp.2.2.1⟩
  simp only [parse_adaptive, hcb, hml, hsl, List.foldl_cons, List.foldl_nil]
  rfl

/-- C1: on a statement with no transaction-shaped line (no date pattern
anywhere, under any cascade format or delimiter), `BankStatementParser.parse`
returns a `ParseResult` with no transactions, no errors and no warnings;
the model of `parse` is a total function, so no exception escapes. -/
theorem parse_no_tx_lines_empty (oracle : Str → Option Str) (text : Str)
    (hno : noTxShapedLines oracle text) :
    (BankStatementParser.parse oracle text).transactions = [] ∧
    (BankStatementParser.parse oracle text).errors = [] ∧
    (BankStatementParser.parse oracle text).warnings = [] := by
  have hcsv : parse_csv oracle text = [] := by
    refine parse_csv_empty oracle text ?_
    intro l hl cell hcell
    have hnd := hno l (List.mem_append_left _ hl)
    exact (noDateLine_parts oracle l hnd).2.2.2.2 ',' (by decide) cell hcell
  have hadapt := parse_adaptive_empty oracle text hno
  have hfb : parse_generic_fallback oracle text = .ok [] := by
    unfold parse_generic_fallback
    refine parse_generic_fallback_go_empty oracle _ ?_
    intro l hl
    have hnd := hno (pyStrip l)
      (List.mem_append_right _ (List.mem_map_of_mem pyStrip hl))
    have hp := noDateLine_parts oracle _ hnd
    exact ⟨hp.1, hp.2.1, hp.2.2.1⟩
  have hdn : deduplicate_transactions [] = [] := rfl
  simp only [BankStatementParser.parse, hcsv, hadapt, hfb, parse_with_ai,
    ite_self, List.append_nil, List.nil_append, List.length_nil,
    List.foldl_nil, hdn]
  exact ⟨trivial, trivial, trivial⟩

theorem parse_no_tx_lines_empty_witness :
    noTxShapedLines (fun _ => none) (S "hello world\nno dates here") ∧
    (BankStatementParser.parse (fun _ => none)
      (S "hello world\nno dates here")).transactions = [] :=
  ⟨by unfold noTxShapedLines; decide, (parse_no_tx_lines_empty (fun _ => none)
    (S "hello world\nno dates here") (by unfold noTxShapedLines; decide)).1⟩
